import Mathlib

/-!
Verification of the per-guild music queue and playback engine of the SenaBot
repository (src/deploy-commands.js, lines 2750-3349).

The JavaScript code is shallowly embedded as follows.

* Pure helpers (`isYouTubeUrl`, `ensureVideoUrl`, `extractThumbnail`, the
  transient-error pattern test, `MAX_PLAYLIST_LENGTH` parsing) become Lean
  functions over `String` / `List Char`; JS truthiness of possibly-null
  strings and numbers is made explicit through `truthyStr` / `truthyInt`
  (`""`, `0`, `null`, `undefined` are falsy).
* The mutable `GuildQueue` object becomes a record, and every method becomes
  a state-passing function.  Wall-clock reads (`Date.now()`) become explicit
  `nowMs : Int` arguments.  Messages sent to the bound text channel are
  accumulated in a `messages` list.
* Network and library calls (`play-dl`, `yt-dlp`, ffmpeg spawning, the
  voice transport) are oracles supplied in environment records; a call that
  can reject is an `Except String` value or a `Bool`/`Option` outcome.
* The `@discordjs/voice` audio player is modelled by a three-state transport
  status (`idle` / `playing` / `paused`): `player.pause()` succeeds exactly
  when playing, `player.unpause()` exactly when paused, `player.play`
  replaces the single current resource, `player.stop()` moves the transport
  to idle (the `Idle` listener firing is a separate later event), and after a
  fatal (non-transient) resource error the transport is likewise without a
  playable resource, hence idle.
* `setImmediate(...)` continuations inside the `Idle`/`error` handlers and
  `_playCurrent` are inlined: each inbound event is processed atomically,
  matching the cooperative single-threaded model of the spec (one event
  callback at a time, with the sub-millisecond deferral collapsed).
* `lastStarted` is a ghost history variable recording the track passed to
  the most recent successful `player.play(...)` call; it exists only to
  state property P1 and is written exactly where the code calls `play`.
-/

/-- ASCII lowercase of a character (JS `String.prototype.toLowerCase` and the
URL constructor lowercase hostnames; only ASCII is relevant here). -/
def lowerChar (c : Char) : Char :=
  if 65 ≤ c.toNat ∧ c.toNat ≤ 90 then Char.ofNat (c.toNat + 32) else c

/-- ASCII lowercase of a string. -/
def lowerStr (s : String) : String := ⟨s.data.map lowerChar⟩

/-- Does the first list begin the second one? (kernel-reducible helper). -/
def beginsWithL [DecidableEq α] : List α → List α → Bool
  | [], _ => true
  | _ :: _, [] => false
  | a :: xs, b :: ys => decide (a = b) && beginsWithL xs ys

/-- Does `pat` occur as a contiguous segment of the list? -/
def containsL [DecidableEq α] (pat : List α) : List α → Bool
  | [] => beginsWithL pat []
  | b :: ys => beginsWithL pat (b :: ys) || containsL pat ys

/-- Substring test, JS `regex.test` with a literal pattern. -/
def containsStr (pat s : String) : Bool := containsL pat.data s.data

/-- String begins-with test. -/
def beginsWithStr (pat s : String) : Bool := beginsWithL pat.data s.data

/-- String ends-with test. -/
def endsWithStr (pat s : String) : Bool :=
  beginsWithL pat.data.reverse s.data.reverse

/-- Suffix of the list after the first occurrence of `sep`, if any. -/
def afterSub [DecidableEq α] (sep : List α) : List α → Option (List α)
  | [] => none
  | b :: ys =>
    if beginsWithL sep (b :: ys) then some ((b :: ys).drop sep.length)
    else afterSub sep ys

/-- Hostname of a URL string: the part between `://` and the first `/`, `?`
or `#`, with any `:port` stripped and lowercased — the fields of
`new URL(u).hostname` that the code inspects.  A string without `://` (for
which `new URL` throws for the shapes appearing here) yields `none`. -/
def hostOf (u : String) : Option String :=
  match afterSub "://".data u.data with
  | none => none
  | some rest =>
    let hostPort := rest.takeWhile (fun c => c ≠ '/' && c ≠ '?' && c ≠ '#')
    let host := hostPort.takeWhile (fun c => c ≠ ':')
    if host.isEmpty then none else some ⟨host.map lowerChar⟩

/-- Embedding of `isYouTubeUrl` (line 2752): hostname matches
`/(^|\.)youtube\.com$/`, equals `youtu.be`, or matches
`/(^|\.)music\.youtube\.com$/`. -/
def isYouTubeUrl (u : String) : Bool :=
  match hostOf u with
  | none => false
  | some h =>
    (h == "youtube.com" || endsWithStr ".youtube.com" h) || h == "youtu.be" ||
      (h == "music.youtube.com" || endsWithStr ".music.youtube.com" h)

/-- JS truthiness filter for a nullable string (`""` is falsy). -/
def truthyStr : Option String → Option String
  | some s => if s = "" then none else some s
  | none => none

/-- JS truthiness filter for a nullable number (`0` is falsy). -/
def truthyInt : Option Int → Option Int
  | some n => if n = 0 then none else some n
  | none => none

/-- Embedding of the `/spotify\.com|spoti\.fi/` test in `add` (line 3001). -/
def spotifyPat (q : String) : Bool :=
  containsStr "spotify.com" q || containsStr "spoti.fi" q

/-- Embedding of the `/^https?:\/\//i` test in `add` (line 3023). -/
def httpPat (q : String) : Bool :=
  beginsWithStr "http://" (lowerStr q) || beginsWithStr "https://" (lowerStr q)

/-- Embedding of the `/list=/` playlist-marker test in `add` (line 3025). -/
def listPat (q : String) : Bool := containsStr "list=" q

/-- Embedding of the transient-stream-error test in the player error handler
(lines 2863-2866): message equal to `aborted`, or containing `aborted`,
`premature close` or `socket hang up`. -/
def isStreamError (msg : String) : Bool :=
  msg == "aborted" || containsStr "aborted" msg ||
    containsStr "premature close" msg || containsStr "socket hang up" msg

/-- Embedding of `ensureVideoUrl` (line 2760), with the three id fields
(`id` / `videoId` / `video_id`) collapsed into one: a truthy `url` string is
used as-is, otherwise a truthy id yields a canonical watch URL. -/
def ensureVideoUrl (url id : Option String) : Option String :=
  match truthyStr url with
  | some u => some u
  | none =>
    match truthyStr id with
    | some i => some ("https://www.youtube.com/watch?v=" ++ i)
    | none => none

/-- A JS value fed to `extractThumbnail` (line 2790): null/undefined, a
string, an object with `url` and/or `thumbnails` fields, or an array
(encoded as a cons list inside the type). -/
inductive ThumbCand where
  | nil : ThumbCand
  | str (s : String) : ThumbCand
  | obj (url : Option String) (thumbs : ThumbCand) : ThumbCand
  | arrNil : ThumbCand
  | arrCons (head tail : ThumbCand) : ThumbCand
deriving DecidableEq

/-- Embedding of `extractThumbnail` (line 2790): falsy candidates give null,
strings are returned, arrays are scanned from the end for the first truthy
extraction, objects yield their truthy `url` or recurse into `thumbnails`. -/
def extractThumbnail : ThumbCand → Option String
  | .nil => none
  | .str s => if s = "" then none else some s
  | .obj url thumbs =>
    match truthyStr url with
    | some u => some u
    | none => extractThumbnail thumbs
  | .arrNil => none
  | .arrCons h t =>
    match extractThumbnail t with
    | some s => some s
    | none => extractThumbnail h

/-- A queued track (the object pushed onto `songs`, line 3075). -/
structure Track where
  title : String
  url : String
  requestedBy : String
  duration : Option Int
  thumbnail : Option String
  artist : Option String
deriving DecidableEq

/-- Status of the `@discordjs/voice` audio player transport. -/
inductive PStatus where
  | idle : PStatus
  | playing : PStatus
  | paused : PStatus
deriving DecidableEq

/-- State of one `GuildQueue` object (constructor at line 2806).  The
`nowPlayingMessage` / interval pair is abstracted to the boolean
`nowPlayingMsg`; `messages` accumulates texts sent to the bound channel;
`lastStarted` is the ghost history variable described in the header. -/
structure GuildQueue where
  guildId : String
  textChannel : String
  songs : List Track
  paused : Bool
  currentStartMs : Int
  pausedAtMs : Option Int
  accumulatedPauseMs : Int
  isTransitioning : Bool
  playerStatus : PStatus
  currentResource : Option Track
  lastStarted : Option Track
  nowPlayingMsg : Bool
  messages : List String
deriving DecidableEq

/-- The freshly constructed `GuildQueue` (lines 2806-2822). -/
def GuildQueue.init (guildId textChannel : String) : GuildQueue where
  guildId := guildId
  textChannel := textChannel
  songs := []
  paused := false
  currentStartMs := 0
  pausedAtMs := none
  accumulatedPauseMs := 0
  isTransitioning := false
  playerStatus := .idle
  currentResource := none
  lastStarted := none
  nowPlayingMsg := false
  messages := []

/-- Number of live playback sessions held by the queue: the single
`currentResource` slot of the single audio player. -/
def GuildQueue.sessionCount (q : GuildQueue) : Nat :=
  match q.currentResource with
  | some _ => 1
  | none => 0

/-- Embedding of `getElapsedSeconds` (lines 3336-3341): zero while no track
timing is active, otherwise `(ref − startTime − accumulatedPause) / 1000`
clamped to ≥ 0, where `ref` is the pause timestamp while paused (JS
truthiness: a zero `pausedAtMs` falls back to `Date.now()`), else now. -/
def GuildQueue.getElapsedSeconds (q : GuildQueue) (nowMs : Int) : ℚ :=
  if q.currentStartMs = 0 then 0
  else
    let ref : Int :=
      match q.paused, q.pausedAtMs with
      | true, some p => if p = 0 then nowMs else p
      | _, _ => nowMs
    let e : ℚ := ((ref - q.currentStartMs - q.accumulatedPauseMs : Int) : ℚ) / 1000
    if e < 0 then 0 else e

/-- Embedding of `pause` (lines 3310-3320).  The transport accepts a pause
exactly when playing; on acceptance the timing bookkeeping is updated only
if the queue was not already flagged paused.  Returns the JS boolean. -/
def GuildQueue.pause (nowMs : Int) (q : GuildQueue) : GuildQueue × Bool :=
  if q.playerStatus = .playing then
    let q1 := { q with playerStatus := .paused }
    if q.paused then (q1, true)
    else ({ q1 with pausedAtMs := some nowMs, paused := true }, true)
  else (q, false)

/-- Embedding of `resume` (lines 3321-3332).  The transport accepts an
unpause exactly when paused; a truthy `pausedAtMs` is folded into
`accumulatedPauseMs` and cleared.  Returns the JS boolean. -/
def GuildQueue.resume (nowMs : Int) (q : GuildQueue) : GuildQueue × Bool :=
  if q.playerStatus = .paused then
    let q1 := { q with playerStatus := .playing }
    match q.pausedAtMs with
    | some p =>
      if p = 0 then ({ q1 with paused := false }, true)
      else
        ({ q1 with accumulatedPauseMs := q.accumulatedPauseMs + (nowMs - p),
                   pausedAtMs := none, paused := false }, true)
    | none => ({ q1 with paused := false }, true)
  else (q, false)

/-- Embedding of `skip` (lines 3299-3303): false on an empty queue,
otherwise the transport is stopped (its `Idle` event arrives later as a
separate event). -/
def GuildQueue.skip (q : GuildQueue) : GuildQueue × Bool :=
  match q.songs with
  | [] => (q, false)
  | _ :: _ => ({ q with playerStatus := .idle }, true)

/-- Embedding of `stop` (lines 3304-3309): clear the queue, stop the
transport, drop the now-playing message, notify the channel. -/
def GuildQueue.stop (q : GuildQueue) : GuildQueue :=
  { q with songs := [], playerStatus := .idle, nowPlayingMsg := false,
           messages := q.messages ++ ["Stopped and cleared queue."] }

/-- Embedding of `remove` (line 3334): indices ≤ 0 or ≥ `songs.length` are
rejected with null; otherwise `splice(index, 1)` removes exactly the element
at that position and returns it. -/
def GuildQueue.remove (index : Int) (q : GuildQueue) : GuildQueue × Option Track :=
  if index ≤ 0 ∨ (q.songs.length : Int) ≤ index then (q, none)
  else
    ({ q with songs := q.songs.take index.toNat ++ q.songs.drop (index.toNat + 1) },
      q.songs[index.toNat]?)

/-- One Fisher–Yates swap: exchange positions `i` and `j` (JS
`[rest[i],rest[j]] = [rest[j],rest[i]]`).  Out-of-range indices leave the
list unchanged; the draws produced by `Math.floor(Math.random()*(i+1))`
always satisfy `j ≤ i < length`, so that case is never exercised. -/
def swapL (l : List α) (i j : Nat) : List α :=
  match l[i]?, l[j]? with
  | some x, some y => (l.set i y).set j x
  | _, _ => l

/-- The downward Fisher–Yates loop of `shuffle` (line 3333) over the
non-head portion: at index `i+1` the head draw `j` is consumed and positions
`i+1` and `j` are swapped, then the loop continues at `i`. -/
def fyAux (l : List α) : Nat → List Nat → List α
  | 0, _ => l
  | _ + 1, [] => l
  | i + 1, j :: cs => fyAux (swapL l (i + 1) j) i cs

/-- Fisher–Yates permutation of a whole list, draws supplied for
`i = length−1, …, 1`. -/
def fyShuffle (l : List α) (cs : List Nat) : List α := fyAux l (l.length - 1) cs

/-- Literal embedding of `shuffle` (line 3333) on the JS value level, where
an absent element is `none` (undefined):
`const [first, ...rest] = this.songs` takes `first = songs[0]` (undefined on
an empty array), the loop shuffles `rest`, and `this.songs = [first, ...rest]`
always re-inserts `first` — on an empty queue this stores `[undefined]`. -/
def jsShuffle (songs : List (Option α)) (cs : List Nat) : List (Option α) :=
  (match songs with
   | [] => none
   | x :: _ => x) :: fyShuffle songs.tail cs

/-- Validity of a Fisher–Yates draw sequence for the downward loop starting
at index `i`: each draw satisfies `j ≤ i`, as produced by
`Math.floor(Math.random() * (i + 1))`. -/
inductive ValidChoices : Nat → List Nat → Prop
  | zero : ValidChoices 0 []
  | cons {i j : Nat} {cs : List Nat} :
      j ≤ i + 1 → ValidChoices i cs → ValidChoices (i + 1) (j :: cs)

/-- The three playback-acquisition strategies of `_playCurrent`
(lines 3197-3289). -/
inductive Strat where
  | primary : Strat
  | infoFallback : Strat
  | ytdlpFfmpeg : Strat
deriving DecidableEq

/-- Oracles for one pass of the fallback playback pipeline.
`primaryOk` is the success of `playdl.stream` plus resource creation;
`infoOk` the success of `playdl.video_basic_info` followed by
`playdl.stream_from_info` plus resource creation; `ytdlpDirect` the direct
media URL extracted by yt-dlp (none when extraction fails or no format
matches); `ffmpegOk` the success of spawning ffmpeg and creating the
transcoded resource. `disablePlaydl` is the `DISABLE_PLAYDL`/`NO_PLAYDL`
environment flag. -/
structure PlayEnv where
  disablePlaydl : Bool
  primaryOk : Track → Bool
  infoOk : Track → Bool
  ytdlpDirect : Track → Option String
  ffmpegOk : Track → Bool

/-- Result classification of one `_playCurrent` pass over the head track. -/
inductive StepOutcome where
  | noTrack : StepOutcome
  | started : StepOutcome
  | advanced : StepOutcome
deriving DecidableEq

/-- State, outcome and ordered list of strategies attempted by one
`_playCurrent` pass. -/
structure StepResult where
  state : GuildQueue
  outcome : StepOutcome
  attempts : List Strat
deriving DecidableEq

/-- Successful strategy epilogue: `player.play(resource)` replaces the
single current resource, the ghost `lastStarted` records the track, and the
now-playing embed is announced. -/
def playStarted (q : GuildQueue) (cur : Track) (atts : List Strat) : StepResult :=
  ⟨{ q with playerStatus := .playing, currentResource := some cur,
            lastStarted := some cur, nowPlayingMsg := true }, .started, atts⟩

/-- All-strategies-failed epilogue (lines 3291-3296): notify, shift the head
off, clear the now-playing message; the deferred `_playCurrent` on the new
head is the loop continuation in `playLoopAux`. -/
def playFailed (q : GuildQueue) (rest : List Track) (atts : List Strat) : StepResult :=
  ⟨{ q with songs := rest, nowPlayingMsg := false,
            messages := q.messages ++ ["All playback methods failed, skipping..."] },
    .advanced, atts⟩

/-- One pass of `_playCurrent` (lines 3176-3297) over the current head:
return silently on an empty queue; drop a head with an invalid URL; else
initialise the timing state and try the strategies in order, first success
wins. -/
def playStep (env : PlayEnv) (nowMs : Int) (q : GuildQueue) : StepResult :=
  match q.songs with
  | [] => ⟨q, .noTrack, []⟩
  | cur :: rest =>
    if ¬ isYouTubeUrl cur.url then
      ⟨{ q with songs := rest, nowPlayingMsg := false,
                messages := q.messages ++ ["Invalid URL, skipping..."] },
        .advanced, []⟩
    else
      let q1 := { q with currentStartMs := nowMs, pausedAtMs := none,
                         accumulatedPauseMs := 0, paused := false,
                         isTransitioning := false }
      if env.disablePlaydl then
        match env.ytdlpDirect cur with
        | some _ =>
          if env.ffmpegOk cur then playStarted q1 cur [.ytdlpFfmpeg]
          else playFailed q1 rest [.ytdlpFfmpeg]
        | none => playFailed q1 rest [.ytdlpFfmpeg]
      else
        if env.primaryOk cur then playStarted q1 cur [.primary]
        else if env.infoOk cur then playStarted q1 cur [.primary, .infoFallback]
        else
          match env.ytdlpDirect cur with
          | some _ =>
            if env.ffmpegOk cur then
              playStarted q1 cur [.primary, .infoFallback, .ytdlpFfmpeg]
            else playFailed q1 rest [.primary, .infoFallback, .ytdlpFfmpeg]
          | none => playFailed q1 rest [.primary, .infoFallback, .ytdlpFfmpeg]

/-- The `_playCurrent` self-recursion (a failed or invalid head defers a new
`_playCurrent` via `setImmediate`, inlined here), bounded by fuel; each
`advanced` pass consumes one song, so `songs.length` fuel always suffices. -/
def playLoopAux (env : PlayEnv) (nowMs : Int) : Nat → GuildQueue → GuildQueue
  | 0, q => q
  | fuel + 1, q =>
    match playStep env nowMs q with
    | ⟨q1, .advanced, _⟩ => playLoopAux env nowMs fuel q1
    | ⟨q1, _, _⟩ => q1

/-- Run `_playCurrent` to completion from a state. -/
def playLoop (env : PlayEnv) (nowMs : Int) (q : GuildQueue) : GuildQueue :=
  playLoopAux env nowMs q.songs.length q

/-- Whether some strategy of the pipeline succeeds for a track. -/
def stratSucceeds (env : PlayEnv) (cur : Track) : Bool :=
  if env.disablePlaydl then (env.ytdlpDirect cur).isSome && env.ffmpegOk cur
  else
    env.primaryOk cur || env.infoOk cur ||
      ((env.ytdlpDirect cur).isSome && env.ffmpegOk cur)

/-- The songs-list evolution of the `_playCurrent` loop, as a pure function
of the songs list: heads are dropped until one with a valid URL is
successfully started (or the list is exhausted). -/
def playSongs (env : PlayEnv) : Nat → List Track → List Track
  | 0, l => l
  | _ + 1, [] => []
  | fuel + 1, cur :: rest =>
    if ¬ isYouTubeUrl cur.url then playSongs env fuel rest
    else if stratSucceeds env cur then cur :: rest
    else playSongs env fuel rest

/-- Embedding of the `AudioPlayerStatus.Idle` listener (lines 2825-2857)
plus the transport state change that fired it.  Duplicate firings during a
transition and firings on an empty queue are ignored; otherwise the finished
head is shifted off, the timing state is reset, and either the next track is
played (the `setImmediate` continuation, inlined) or the ended notification
is sent. -/
def onIdle (env : PlayEnv) (nowMs : Int) (q : GuildQueue) : GuildQueue :=
  let q0 := { q with playerStatus := .idle }
  if q0.isTransitioning then q0
  else
    match q0.songs with
    | [] => q0
    | _ :: rest =>
      let q1 := { q0 with songs := rest, currentStartMs := 0, pausedAtMs := none,
                          accumulatedPauseMs := 0, currentResource := none,
                          nowPlayingMsg := false, isTransitioning := false }
      match rest with
      | [] => { q1 with messages := q1.messages ++ ["Queue ended."] }
      | _ :: _ => playLoop env nowMs q1

/-- Embedding of the player `error` listener (lines 2858-2886) plus the
transport consequence of a fatal resource error.  A transient-pattern error
is logged only; a fatal error notifies the channel, shifts the failed head
off without touching the timing state, and plays the next track if any (the
`setImmediate` continuation, inlined). -/
def onError (env : PlayEnv) (msg : String) (nowMs : Int) (q : GuildQueue) : GuildQueue :=
  if isStreamError msg then q
  else
    let q1 := { q with messages := q.messages ++ ["Playback error: " ++ msg],
                       playerStatus := .idle, isTransitioning := false,
                       songs := q.songs.tail }
    match q1.songs with
    | [] => q1
    | _ :: _ => playLoop env nowMs q1

/-- Guarded `shuffle` as invoked by the `/shuffle` command handler
(line 1396 checks `queue.songs.length` before calling line 3333): the head
stays fixed and the rest goes through the Fisher–Yates loop. -/
def GuildQueue.shuffle (cs : List Nat) (q : GuildQueue) : GuildQueue :=
  match q.songs with
  | [] => q
  | t :: rest => { q with songs := t :: fyShuffle rest cs }

/-- Metadata triple enriched for a track (lines 2999, 3051-3072). -/
structure Meta where
  duration : Option Int
  thumbnail : Option String
  artist : Option String
deriving DecidableEq

/-- The `video_details` fields of `playdl.video_basic_info` that the code
reads.  `thumbUrls` is the `vd.thumbnails || vd.thumbnail.thumbnails || []`
array, one `url` per entry. -/
structure VideoDetails where
  title : Option String
  channelName : Option String
  authorName : Option String
  durationInSec : Option Int
  thumbUrls : List (Option String)
deriving DecidableEq

/-- The yt-dlp single-video JSON fields read by metadata enrichment
(lines 3063-3068). -/
structure YtdlpJson where
  duration : Option Int
  durationString : Option String
  uploader : Option String
  channel : Option String
  thumbnail : Option String
  thumbUrls : List (Option String)
deriving DecidableEq

/-- Decimal digit value of a character, if it is a digit. -/
def digitVal (c : Char) : Option Nat :=
  if 48 ≤ c.toNat ∧ c.toNat ≤ 57 then some (c.toNat - 48) else none

/-- Parse an unsigned decimal numeral from a character list. -/
def parseNatL : List Char → Option Nat
  | [] => none
  | cs =>
    cs.foldl
      (fun acc c =>
        match acc, digitVal c with
        | some a, some d => some (a * 10 + d)
        | _, _ => none)
      (some 0)

/-- Parse a decimal integer (optional leading minus) from a string; `none`
models the NaN outcome of JS `Number(...)` on non-numeric input. -/
def parseIntStr (s : String) : Option Int :=
  match s.data with
  | '-' :: rest => (parseNatL rest).map (fun n => -(n : Int))
  | cs => (parseNatL cs).map (fun n => (n : Int))

/-- Split a character list at a separator character. -/
def splitOnCh (sep : Char) : List Char → List (List Char)
  | [] => [[]]
  | c :: cs =>
    let rest := splitOnCh sep cs
    if c = sep then [] :: rest
    else
      match rest with
      | [] => [[c]]
      | r :: rs => (c :: r) :: rs

/-- JS `duration_string.split(':').reduce((acc,v) => acc*60+Number(v), 0)`:
sexagesimal parse; a non-numeric component makes the JS result NaN, hence
falsy, modelled as `none`. -/
def parseDurStr (s : String) : Option Int :=
  let parts := splitOnCh ':' s.data
  if parts.all (fun p => (parseNatL p).isSome) then
    some (parts.foldl (fun acc p => acc * 60 + ((parseNatL p).getD 0 : Int)) 0)
  else none

/-- JS `array.join(sep)` for strings. -/
def joinWith (sep : String) : List String → String
  | [] => ""
  | [x] => x
  | x :: xs => x ++ sep ++ joinWith sep xs

/-- First truthy of two nullable strings (the JS `a || b || null` chain). -/
def firstTruthy (a b : Option String) : Option String :=
  match truthyStr a with
  | some s => some s
  | none => truthyStr b

/-- Best-effort metadata enrichment (lines 3051-3072).  Unless play-dl is
disabled, `video_basic_info` fills missing fields; if it throws, the whole
try-block aborts (so yt-dlp is not consulted either).  If any field is still
falsy, yt-dlp JSON fills the gaps; a yt-dlp failure keeps whatever was set
before.  Enrichment is total: no failure escapes. -/
def enrichMeta (disablePlaydl : Bool) (basicInfo : Except String VideoDetails)
    (ytdlpMeta : Except String YtdlpJson) (meta0 : Meta) : Meta :=
  let step1 : Option Meta :=
    if disablePlaydl then some meta0
    else
      match basicInfo with
      | .error _ => none
      | .ok vd =>
        let duration := truthyInt vd.durationInSec
        let artist := firstTruthy meta0.artist (firstTruthy vd.channelName vd.authorName)
        let thumbnail :=
          match vd.thumbUrls.getLast?, vd.thumbUrls.head? with
          | some lastU, some firstU => firstTruthy lastU firstU
          | _, _ => meta0.thumbnail
        some { duration := duration, thumbnail := thumbnail, artist := artist }
  match step1 with
  | none => meta0
  | some m1 =>
    if m1.duration.isSome ∧ (truthyStr m1.thumbnail).isSome ∧ (truthyStr m1.artist).isSome then
      m1
    else
      match ytdlpMeta with
      | .error _ => m1
      | .ok j =>
        let duration :=
          match m1.duration with
          | some d => some d
          | none =>
            match truthyInt j.duration with
            | some d => some d
            | none => truthyInt ((j.durationString.bind parseDurStr))
        let artist := firstTruthy m1.artist (firstTruthy j.uploader j.channel)
        let thumbnail :=
          match truthyStr m1.thumbnail with
          | some t => some t
          | none =>
            match truthyStr j.thumbnail with
            | some t => some t
            | none =>
              match j.thumbUrls.getLast? with
              | some u => u
              | none => none
        { duration := duration, thumbnail := thumbnail, artist := artist }

/-- A `playdl.search` top-1 result object, with the id fields collapsed as in
`ensureVideoUrl`. -/
structure SearchVideo where
  url : Option String
  id : Option String
  title : Option String
  channelName : Option String
  authorName : Option String
deriving DecidableEq

/-- A Spotify track as reported by `playdl.spotify`. -/
structure SpotifyTrackInfo where
  name : String
  artistNames : List String
deriving DecidableEq

/-- The shapes of a `playdl.spotify` result that the code distinguishes. -/
inductive SpotifyInfo where
  | track (t : SpotifyTrackInfo) : SpotifyInfo
  | playlist (tracks : List SpotifyTrackInfo) : SpotifyInfo
  | other : SpotifyInfo
deriving DecidableEq

/-- A video object collected during playlist expansion, play-dl shape
(the yt-dlp fallback entries are converted into this shape by the code,
lines 3139-3145). -/
structure PlaylistVideo where
  url : Option String
  id : Option String
  title : Option String
  durationInSec : Option Int
  durationNum : Option Int
  thumbs : ThumbCand
  channelName : Option String
  authorName : Option String
deriving DecidableEq

/-- The `playdl.playlist_info` + `fetch` result fields the code reads:
`fetched_videos` pages when it is a Map, the plain `videos` array, and the
playlist title. -/
structure PlaydlPlaylist where
  fetchedPages : Option (List (List PlaylistVideo))
  videosArr : Option (List PlaylistVideo)
  title : Option String
deriving DecidableEq

/-- A flat-playlist entry from the yt-dlp fallback (lines 3137-3147). -/
structure YtdlpEntry where
  id : Option String
  title : Option String
  duration : Option Int
  thumbs : ThumbCand
  uploader : Option String
  channel : Option String
deriving DecidableEq

/-- The yt-dlp flat-playlist JSON. -/
structure YtdlpPlaylist where
  title : Option String
  entries : List YtdlpEntry
deriving DecidableEq

instance [DecidableEq ε] [DecidableEq α] : DecidableEq (Except ε α) := fun a b =>
  match a, b with
  | .error e, .error f =>
    if h : e = f then .isTrue (congrArg Except.error h)
    else .isFalse (by intro hc; cases hc; exact h rfl)
  | .ok x, .ok y =>
    if h : x = y then .isTrue (congrArg Except.ok h)
    else .isFalse (by intro hc; cases hc; exact h rfl)
  | .error _, .ok _ => .isFalse (by intro hc; cases hc)
  | .ok _, .error _ => .isFalse (by intro hc; cases hc)

/-- Oracles for one `_queueYouTubePlaylist` call: the combined
`playlist_info`+`fetch` outcome and the yt-dlp flat-playlist outcome. -/
structure PlaylistEnv where
  playdlResult : Except String PlaydlPlaylist
  ytdlpResult : Except String YtdlpPlaylist
deriving DecidableEq

/-- The two playlist-listing strategies. -/
inductive PlStrat where
  | playdlList : PlStrat
  | ytdlpList : PlStrat
deriving DecidableEq

/-- Embedding of `_createTrackFromPlaylistVideo` (lines 3080-3096): drop the
item unless a YouTube locator can be built; otherwise build the Track with
`durationInSec` preferred over a numeric `duration` (a typeof-number test,
so zero is kept), thumbnail extraction, and the channel/author name chain. -/
def createTrackFromPlaylistVideo (requestedBy fallbackTitle : String)
    (v : PlaylistVideo) : Option Track :=
  match ensureVideoUrl v.url v.id with
  | none => none
  | some u =>
    if ¬ isYouTubeUrl u then none
    else
      some
        { title :=
            match truthyStr v.title with
            | some t => t
            | none => if fallbackTitle = "" then "Untitled" else fallbackTitle,
          url := u,
          requestedBy := requestedBy,
          duration :=
            match v.durationInSec with
            | some d => some d
            | none => v.durationNum,
          thumbnail := extractThumbnail v.thumbs,
          artist := firstTruthy v.channelName v.authorName }

/-- The video objects collected from a successful play-dl listing
(lines 3104-3119): the page walk pushes videos until `MAX_PLAYLIST_LENGTH`
is reached (the nested breaks), i.e. takes the first `maxLen` of the
flattened pages, falling back to the plain `videos` array when that yields
nothing. -/
def collectedOfPlaydl (pl : PlaydlPlaylist) (maxLen : Nat) : List PlaylistVideo :=
  let fromPages : List PlaylistVideo :=
    match pl.fetchedPages with
    | some pages => pages.flatten.take maxLen
    | none => []
  if fromPages.isEmpty then
    match pl.videosArr with
    | some vs => vs.take maxLen
    | none => []
  else fromPages

/-- The video objects built from the yt-dlp flat-playlist entries
(lines 3137-3147): the first `MAX_PLAYLIST_LENGTH` entries with a truthy id,
converted into the play-dl video shape. -/
def collectedOfYtdlp (yd : YtdlpPlaylist) (maxLen : Nat) : List PlaylistVideo :=
  (yd.entries.take maxLen).filterMap fun en =>
    match truthyStr en.id with
    | some i =>
      some { url := none, id := some i,
             title := some ((truthyStr en.title).getD "Unknown"),
             durationInSec := truthyInt en.duration, durationNum := none,
             thumbs := en.thumbs,
             channelName := firstTruthy en.uploader en.channel,
             authorName := none }
    | none => none

/-- Collection phase of `_queueYouTubePlaylist` (lines 3098-3155): its
result (playlist title and collected video objects, or the thrown message)
together with the ordered list of listing strategies attempted.  Only when
play-dl throws is the yt-dlp flat-playlist fallback attempted; a collection
with zero videos throws `Playlist has no videos`. -/
def collectPlaylist (penv : PlaylistEnv) (maxLen : Nat) :
    Except String (String × List PlaylistVideo) × List PlStrat :=
  match penv.playdlResult with
  | .ok pl =>
    let collected := collectedOfPlaydl pl maxLen
    let title := (truthyStr pl.title).getD "YouTube Playlist"
    if collected.isEmpty then (.error "Playlist has no videos", [.playdlList])
    else (.ok (title, collected), [.playdlList])
  | .error e1 =>
    match penv.ytdlpResult with
    | .ok yd =>
      let title := (truthyStr yd.title).getD "YouTube Playlist"
      let collected := collectedOfYtdlp yd maxLen
      if collected.isEmpty then
        (.error "Playlist has no videos", [.playdlList, .ytdlpList])
      else (.ok (title, collected), [.playdlList, .ytdlpList])
    | .error _ =>
      (.error ("Playlist loading failed: " ++ e1), [.playdlList, .ytdlpList])

/-- The tracks a playlist add would append: collected videos filtered
through `createTrackFromPlaylistVideo`; zero playable videos throw
`Playlist has no playable videos` (lines 3158-3163). -/
def tracksOfPlaylist (penv : PlaylistEnv) (maxLen : Nat) (requestedBy : String) :
    Except String (String × List Track) × List PlStrat :=
  let c := collectPlaylist penv maxLen
  match c.1 with
  | .error e => (.error e, c.2)
  | .ok (title, collected) =>
    let tracks := collected.filterMap (createTrackFromPlaylistVideo requestedBy title)
    if tracks.isEmpty then (.error "Playlist has no playable videos", c.2)
    else (.ok (title, tracks), c.2)

/-- Append resolved tracks to `songs` and, when the player is idle, run
`_playCurrent` (the shared tail of `add` at line 3075-3076 and of
`_queueYouTubePlaylist` at lines 3165-3167). -/
def enqueue (env : PlayEnv) (nowMs : Int) (ts : List Track) (q : GuildQueue) : GuildQueue :=
  let q1 := { q with songs := q.songs ++ ts }
  if q1.playerStatus = .idle then playLoop env nowMs q1 else q1

/-- The value returned by a successful `add`. -/
inductive AddResult where
  | trackRes (title url : String) (meta : Meta) : AddResult
  | playlistRes (title : String) (trackCount : Nat) (firstTrack : Track) : AddResult
deriving DecidableEq

/-- Embedding of `_queueYouTubePlaylist` (lines 3098-3174): on success the
tracks are enqueued and the summary carries the playlist title, the number
of tracks actually appended, and the first appended track; any throw leaves
the state untouched. -/
def queueYouTubePlaylist (penv : PlaylistEnv) (env : PlayEnv) (maxLen : Nat)
    (requestedBy : String) (nowMs : Int) (q : GuildQueue) :
    Except String AddResult × GuildQueue × List PlStrat :=
  let r := tracksOfPlaylist penv maxLen requestedBy
  match r.1 with
  | .error e => (.error e, q, r.2)
  | .ok (_, []) => (.error "Playlist has no playable videos", q, r.2)
  | .ok (title, t :: ts) =>
    (.ok (.playlistRes title (t :: ts).length t), enqueue env nowMs (t :: ts) q, r.2)

/-- Oracles for one `add` call: the Spotify lookup, the top-1 search per
query string, `video_basic_info` per URL (used both for resolution of a
plain link and for enrichment), the yt-dlp metadata JSON per URL, the
playlist oracles, the playback pipeline oracles and the play-dl disable
flag (the same `DISABLE_PLAYDL`/`NO_PLAYDL` variable as in `PlayEnv`). -/
structure AddEnv where
  spotify : Except String SpotifyInfo
  search : String → Except String (List SearchVideo)
  basicInfo : String → Except String VideoDetails
  ytdlpMeta : String → Except String YtdlpJson
  playlistEnv : PlaylistEnv
  playEnv : PlayEnv
  disablePlaydl : Bool
  maxPlaylistLength : Nat

/-- Outcome of the resolution try-block of `add` (lines 3000-3048): either a
locator candidate with title and pre-set artist, or the playlist path result
(which returns from inside the try-block), or a thrown message. -/
inductive ResolveOut where
  | single (url : Option String) (title : String) (artist0 : Option String) : ResolveOut
  | playlistDone (res : AddResult) (q : GuildQueue) : ResolveOut
deriving Inhabited

/-- The resolution try-block of `add` (lines 3000-3048): Spotify links are
re-searched by name+artists, YouTube playlist links delegate to playlist
expansion, plain YouTube links are used as-is with best-effort title, free
text is searched top-1; all other shapes throw. -/
def resolveAdd (env : AddEnv) (query requestedBy : String) (nowMs : Int)
    (q : GuildQueue) : Except String ResolveOut :=
  if spotifyPat query then
    match env.spotify with
    | .error e => .error e
    | .ok (.track t) =>
      let terms := t.name ++ " " ++ joinWith " " t.artistNames
      match env.search terms with
      | .error e => .error e
      | .ok [] => .error "No YouTube match for Spotify track"
      | .ok (v :: _) =>
        .ok (.single (ensureVideoUrl v.url v.id) ((truthyStr v.title).getD t.name)
          (truthyStr (t.artistNames.head?.getD "")))
    | .ok (.playlist tracks) =>
      match tracks with
      | [] => .error "Empty Spotify playlist"
      | first :: _ =>
        let terms := first.name ++ " " ++ joinWith " " first.artistNames
        match env.search terms with
        | .error e => .error e
        | .ok [] => .error "No YouTube match for first playlist track"
        | .ok (v :: _) =>
          .ok (.single (ensureVideoUrl v.url v.id) ((truthyStr v.title).getD first.name)
            (truthyStr (first.artistNames.head?.getD "")))
    | .ok .other => .error "Unsupported Spotify resource"
  else if httpPat query then
    if ¬ isYouTubeUrl query then .error "Only YouTube URLs supported"
    else if listPat query then
      let r := queueYouTubePlaylist env.playlistEnv env.playEnv env.maxPlaylistLength
        requestedBy nowMs q
      match r.1 with
      | .error e => .error e
      | .ok res => .ok (.playlistDone res r.2.1)
    else
      match env.basicInfo query with
      | .ok vd =>
        .ok (.single (some query) ((truthyStr vd.title).getD query)
          (firstTruthy vd.channelName vd.authorName))
      | .error _ => .ok (.single (some query) query none)
  else
    match env.search query with
    | .error e => .error e
    | .ok [] => .error "No search results"
    | .ok (v :: _) =>
      .ok (.single (ensureVideoUrl v.url v.id) ((truthyStr v.title).getD query)
        (firstTruthy v.channelName v.authorName))

/-- Embedding of `add` (lines 2993-3078): empty queries throw; resolution
throws are wrapped as `Search failed: ...`; a missing or non-YouTube locator
throws `Unplayable URL`; metadata enrichment is best-effort; the track is
pushed and played when the player is idle.  Every throwing path leaves the
queue untouched. -/
def addFull (env : AddEnv) (query : String) (member : Option String) (nowMs : Int)
    (q : GuildQueue) : Except String AddResult × GuildQueue :=
  if query = "" then (.error "Empty query", q)
  else
    let requestedBy := member.getD "Unknown"
    match resolveAdd env query requestedBy nowMs q with
    | .error e => (.error ("Search failed: " ++ e), q)
    | .ok (.playlistDone res q1) => (.ok res, q1)
    | .ok (.single url? title artist0) =>
      match url? with
      | none => (.error "Unplayable URL", q)
      | some url =>
        if ¬ isYouTubeUrl url then (.error "Unplayable URL", q)
        else
          let meta := enrichMeta env.disablePlaydl (env.basicInfo url)
            (env.ytdlpMeta url) { duration := none, thumbnail := none, artist := artist0 }
          let tr : Track :=
            { title := title, url := url, requestedBy := requestedBy,
              duration := meta.duration, thumbnail := meta.thumbnail,
              artist := meta.artist }
          (.ok (.trackRes title url meta), enqueue env.playEnv nowMs [tr] q)

/-- Embedding of the `MAX_PLAYLIST_LENGTH` configuration parse (line 2750):
`Math.max(1, Number(env.MAX_PLAYLIST_LENGTH || '400') || 400)` — an unset or
empty variable means 400, a non-numeric or zero parse falls back to 400, and
the result is at least 1. -/
def maxPlaylistLengthOf (v : Option String) : Nat :=
  let s := match v with
    | some str => if str = "" then "400" else str
    | none => "400"
  let n : Int := match parseIntStr s with
    | some k => if k = 0 then 400 else k
    | none => 400
  (max 1 n).toNat

/-- The inbound events driving one `GuildQueue`, each carrying its oracles
and, where the code reads `Date.now()`, a timestamp. -/
inductive Event where
  | addE (env : AddEnv) (query : String) (member : Option String) (nowMs : Int) : Event
  | idleE (env : PlayEnv) (nowMs : Int) : Event
  | errorE (env : PlayEnv) (msg : String) (nowMs : Int) : Event
  | skipE : Event
  | stopE : Event
  | pauseE (nowMs : Int) : Event
  | resumeE (nowMs : Int) : Event
  | shuffleE (cs : List Nat) : Event
  | removeE (index : Int) : Event

/-- One event processed against the queue state. -/
def stepEv (e : Event) (q : GuildQueue) : GuildQueue :=
  match e with
  | .addE env query member nowMs => (addFull env query member nowMs q).2
  | .idleE env nowMs => onIdle env nowMs q
  | .errorE env msg nowMs => onError env msg nowMs q
  | .skipE => (q.skip).1
  | .stopE => q.stop
  | .pauseE nowMs => (GuildQueue.pause nowMs q).1
  | .resumeE nowMs => (GuildQueue.resume nowMs q).1
  | .shuffleE cs => GuildQueue.shuffle cs q
  | .removeE index => (GuildQueue.remove index q).1

/-- Timestamps delivered by the runtime are positive (`Date.now()` is far
from the 1970 epoch). -/
def eventOK : Event → Prop
  | .addE _ _ _ nowMs => 0 < nowMs
  | .idleE _ nowMs => 0 < nowMs
  | .errorE _ _ nowMs => 0 < nowMs
  | .pauseE nowMs => 0 < nowMs
  | .resumeE nowMs => 0 < nowMs
  | _ => True

/-- Fold a list of events over a state. -/
def runEvents (evs : List Event) (q : GuildQueue) : GuildQueue :=
  evs.foldl (fun s e => stepEv e s) q

/-- A queue state reachable from creation through well-timed events. -/
def ReachableQ (gid tc : String) (q : GuildQueue) : Prop :=
  ∃ evs : List Event, (∀ e ∈ evs, eventOK e) ∧
    q = runEvents evs (GuildQueue.init gid tc)

/-- Embedding of `PlayerManager` (lines 3344-3349): the process-wide
registry mapping guild ids to their queues. -/
structure PlayerManager where
  queues : List (String × GuildQueue)
deriving DecidableEq

/-- Embedding of `PlayerManager.get` (line 3346): lazy get-or-create; an
existing queue is returned as stored and the `textChannel` argument is only
consulted when the queue is first created. -/
def PlayerManager.get (pm : PlayerManager) (guildId textChannel : String) :
    GuildQueue × PlayerManager :=
  match pm.queues.lookup guildId with
  | some q => (q, pm)
  | none =>
    let q := GuildQueue.init guildId textChannel
    (q, ⟨(guildId, q) :: pm.queues⟩)

/-- Timing-bookkeeping soundness: while the `paused` flag is set, either a
truthy pause timestamp is recorded or no track timing is active at all. -/
def pausedClause (q : GuildQueue) : Prop :=
  q.paused = true →
    (∃ p, q.pausedAtMs = some p ∧ p ≠ 0) ∨
      (q.pausedAtMs = none ∧ q.currentStartMs = 0)

/-- The inductive invariant of the queue state machine: an empty queue means
an idle transport; the head track, when present, is the track most recently
handed to a successful playback start; and the pause bookkeeping is sound. -/
def InvQ (q : GuildQueue) : Prop :=
  (q.songs = [] → q.playerStatus = .idle) ∧
  (∀ t, q.songs.head? = some t → q.lastStarted = some t) ∧
  pausedClause q

/-- Sample track used in concrete instantiations. -/
def trackA : Track :=
  { title := "A", url := "https://www.youtube.com/watch?v=aaa", requestedBy := "u",
    duration := some 10, thumbnail := none, artist := none }

/-- Second sample track. -/
def trackB : Track :=
  { title := "B", url := "https://www.youtube.com/watch?v=bbb", requestedBy := "u",
    duration := some 20, thumbnail := none, artist := none }

/-- Third sample track. -/
def trackC : Track :=
  { title := "C", url := "https://www.youtube.com/watch?v=ccc", requestedBy := "u",
    duration := none, thumbnail := none, artist := none }

/-- Pipeline oracles under which every strategy fails. -/
def envAllFail : PlayEnv :=
  { disablePlaydl := false, primaryOk := fun _ => false, infoOk := fun _ => false,
    ytdlpDirect := fun _ => none, ffmpegOk := fun _ => false }

/-- Pipeline oracles under which the primary strategy succeeds. -/
def envPrimaryOK : PlayEnv :=
  { disablePlaydl := false, primaryOk := fun _ => true, infoOk := fun _ => false,
    ytdlpDirect := fun _ => none, ffmpegOk := fun _ => false }

/-- A concrete playback state: `trackA` loaded and playing since t = 1000ms.
It equals `runEvents [addE ...] (GuildQueue.init "g" "c")` for the add
environment `addEnvA` below. -/
def qPlayingA : GuildQueue :=
  { GuildQueue.init "g" "c" with
      songs := [{ trackA with thumbnail := some "th", artist := some "Ch" }],
      playerStatus := .playing,
      currentResource := some { trackA with thumbnail := some "th", artist := some "Ch" },
      lastStarted := some { trackA with thumbnail := some "th", artist := some "Ch" },
      currentStartMs := 1000, nowPlayingMsg := true }

/-- Add oracles that resolve a plain YouTube link with full metadata from
`video_basic_info` and play it via the primary strategy. -/
def addEnvA : AddEnv :=
  { spotify := .error "offline",
    search := fun _ => .error "offline",
    basicInfo := fun _ =>
      .ok { title := some "A", channelName := some "Ch", authorName := none,
            durationInSec := some 10, thumbUrls := [some "th"] },
    ytdlpMeta := fun _ => .error "offline",
    playlistEnv := { playdlResult := .error "offline", ytdlpResult := .error "offline" },
    playEnv := envPrimaryOK,
    disablePlaydl := false,
    maxPlaylistLength := 400 }

/-- A queue holding three tracks, otherwise fresh. -/
def qThree : GuildQueue :=
  { GuildQueue.init "g" "c" with songs := [trackA, trackB, trackC] }

/-- A yt-dlp flat-playlist with one playable entry. -/
def ydOneSong : YtdlpPlaylist :=
  { title := some "T",
    entries := [{ id := some "abc", title := some "Song", duration := some 100,
                  thumbs := .nil, uploader := some "Up", channel := none }] }

/-- Playlist oracles where play-dl succeeds but returns no videos while the
yt-dlp listing would have had a playable entry. -/
def penvEmptyPrimary : PlaylistEnv :=
  { playdlResult := .ok { fetchedPages := some [], videosArr := none, title := none },
    ytdlpResult := .ok ydOneSong }

/-- Playlist oracles where play-dl yields one page with two videos that
resolve to `trackA` and `trackB`. -/
def penvTwoSongs : PlaylistEnv :=
  { playdlResult :=
      .ok { fetchedPages :=
              some [[{ url := some "https://www.youtube.com/watch?v=aaa", id := none,
                       title := some "A", durationInSec := some 10, durationNum := none,
                       thumbs := .nil, channelName := none, authorName := none },
                     { url := some "https://www.youtube.com/watch?v=bbb", id := none,
                       title := some "B", durationInSec := some 20, durationNum := none,
                       thumbs := .nil, channelName := none, authorName := none }]],
            videosArr := none, title := some "Mix" },
    ytdlpResult := .error "offline" }

/-- C9: for every integer index, `remove(index)` with index ≤ 0 or
index ≥ songs.length returns null and leaves the queue unchanged (so the
playing head at index 0 can never be removed this way); for
1 ≤ index < songs.length it returns the track at that position and removes
exactly that one element. -/
theorem remove_bounds_exact (q : GuildQueue) (index : Int) :
    ((index ≤ 0 ∨ (q.songs.length : Int) ≤ index) →
       GuildQueue.remove index q = (q, none)) ∧
    (1 ≤ index → index < (q.songs.length : Int) →
      ∃ t, q.songs[index.toNat]? = some t ∧
        GuildQueue.remove index q =
          ({ q with songs := q.songs.take index.toNat ++ q.songs.drop (index.toNat + 1) },
            some t) ∧
        (GuildQueue.remove index q).1.songs.length = q.songs.length - 1) := by
  constructor
  · intro h
    unfold GuildQueue.remove
    rw [if_pos h]
  · intro h1 h2
    have hc : ¬ (index ≤ 0 ∨ (q.songs.length : Int) ≤ index) := by omega
    have hlt : index.toNat < q.songs.length := by omega
    refine ⟨q.songs[index.toNat], List.getElem?_eq_getElem hlt, ?_, ?_⟩
    · unfold GuildQueue.remove
      rw [if_neg hc, List.getElem?_eq_getElem hlt]
    · unfold GuildQueue.remove
      rw [if_neg hc]
      simp only [List.length_append, List.length_take, List.length_drop]
      omega

/-- Witness for C9 at a three-track queue: both out-of-range shapes return
null unchanged, and index 1 removes exactly the second track. -/
theorem remove_bounds_exact_witness :
    GuildQueue.remove 0 qThree = (qThree, none) ∧
    GuildQueue.remove 3 qThree = (qThree, none) ∧
    (GuildQueue.remove 1 qThree).2 = some trackB ∧
    (GuildQueue.remove 1 qThree).1.songs = [trackA, trackC] := by
  refine ⟨(remove_bounds_exact qThree 0).1 (Or.inl le_rfl),
    (remove_bounds_exact qThree 3).1 (Or.inr (by decide)), ?_, ?_⟩
  · obtain ⟨t, ht, heq, -⟩ := (remove_bounds_exact qThree 1).2 (by decide) (by decide)
    rw [heq]
    have : qThree.songs[(1 : Int).toNat]? = some trackB := by decide
    rw [this] at ht
    exact congrArg some (Option.some_inj.mp ht).symm ▸ rfl
  · obtain ⟨t, ht, heq, -⟩ := (remove_bounds_exact qThree 1).2 (by decide) (by decide)
    rw [heq]
    rfl

/-- C8: pausing twice returns false the second time without double-counting
the paused interval; resuming twice returns false the second time; and a
transport refusal leaves the state fully unchanged. -/
theorem pause_resume_idempotent :
    (∀ (q : GuildQueue) (t1 t2 : Int), (GuildQueue.pause t1 q).2 = true →
       GuildQueue.pause t2 (GuildQueue.pause t1 q).1 = ((GuildQueue.pause t1 q).1, false)) ∧
    (∀ (q : GuildQueue) (t1 t2 : Int), (GuildQueue.resume t1 q).2 = true →
       GuildQueue.resume t2 (GuildQueue.resume t1 q).1 = ((GuildQueue.resume t1 q).1, false)) ∧
    (∀ (q : GuildQueue) (t1 t2 t3 : Int), q.playerStatus = .playing → q.paused = false →
       t1 ≠ 0 →
       ((GuildQueue.resume t2 (GuildQueue.pause t1 q).1).1).accumulatedPauseMs =
         q.accumulatedPauseMs + (t2 - t1) ∧
       ((GuildQueue.resume t2 (GuildQueue.pause t3 (GuildQueue.pause t1 q).1).1).1).accumulatedPauseMs =
         q.accumulatedPauseMs + (t2 - t1)) ∧
    (∀ (q : GuildQueue) (t : Int), q.playerStatus ≠ .playing →
       GuildQueue.pause t q = (q, false)) ∧
    (∀ (q : GuildQueue) (t : Int), q.playerStatus ≠ .paused →
       GuildQueue.resume t q = (q, false)) := by
  refine ⟨?_, ?_, ?_, ?_, ?_⟩
  · intro q t1 t2 h
    unfold GuildQueue.pause at h ⊢
    by_cases hp : q.playerStatus = .playing
    · simp only [hp, if_pos rfl] at h ⊢
      by_cases hpd : q.paused <;> simp [hpd]
    · simp [hp] at h
  · intro q t1 t2 h
    unfold GuildQueue.resume at h ⊢
    by_cases hp : q.playerStatus = .paused
    · simp only [hp, if_pos rfl] at h ⊢
      cases hq : q.pausedAtMs with
      | none => simp [hq]
      | some p =>
        by_cases hz : p = 0 <;> simp [hq, hz]
    · simp [hp] at h
  · intro q t1 t2 t3 hst hpd ht1
    unfold GuildQueue.pause GuildQueue.resume
    simp [hst, hpd, ht1]
  · intro q t hst
    unfold GuildQueue.pause
    simp [hst]
  · intro q t hst
    unfold GuildQueue.resume
    simp [hst]

/-- Witness for C8 on a concrete playing state: pause at t=1000, a second
pause refused, resume at t=6000 accumulating exactly 5000ms, a second resume
refused. -/
theorem pause_resume_idempotent_witness :
    (GuildQueue.pause 2000 (GuildQueue.pause 1000 qPlayingA).1 =
      ((GuildQueue.pause 1000 qPlayingA).1, false)) ∧
    ((GuildQueue.resume 6000 (GuildQueue.pause 1000 qPlayingA).1).1).accumulatedPauseMs = 5000 ∧
    GuildQueue.resume 7000 (GuildQueue.resume 6000 (GuildQueue.pause 1000 qPlayingA).1).1 =
      ((GuildQueue.resume 6000 (GuildQueue.pause 1000 qPlayingA).1).1, false) := by
  refine ⟨pause_resume_idempotent.1 qPlayingA 1000 2000 (by decide), ?_, ?_⟩
  · have h := (pause_resume_idempotent.2.2.1 qPlayingA 1000 6000 0 (by decide) (by decide)
      (by decide)).1
    rw [h]
    decide
  · refine pause_resume_idempotent.2.1 (GuildQueue.pause 1000 qPlayingA).1 6000 7000 ?_
    decide

/-- C10: `playerManager.get` is get-or-create; after the first call every
later call returns the identical stored queue and registry, and the
`textChannel` supplied at creation is kept, the later argument ignored. -/
theorem registry_get_or_create_stable (pm : PlayerManager) (gid tc1 tc2 : String) :
    (PlayerManager.get (PlayerManager.get pm gid tc1).2 gid tc2 =
       ((PlayerManager.get pm gid tc1).1, (PlayerManager.get pm gid tc1).2)) ∧
    (pm.queues.lookup gid = none →
       (PlayerManager.get pm gid tc1).1.textChannel = tc1 ∧
       (PlayerManager.get (PlayerManager.get pm gid tc1).2 gid tc2).1.textChannel = tc1) := by
  cases h : pm.queues.lookup gid with
  | some q =>
    constructor
    · simp [PlayerManager.get, h]
    · intro hc
      simp at hc
  | none =>
    have hlook :
        ((gid, GuildQueue.init gid tc1) :: pm.queues).lookup gid =
          some (GuildQueue.init gid tc1) := by
      simp [List.lookup]
    constructor
    · simp [PlayerManager.get, h, hlook]
    · intro _
      constructor
      · simp [PlayerManager.get, h, GuildQueue.init]
      · simp [PlayerManager.get, h, hlook, GuildQueue.init]

/-- Witness for C10 from an empty registry: the second `get` with a
different channel returns the queue created by the first one, still bound to
the first channel. -/
theorem registry_get_or_create_stable_witness :
    (PlayerManager.get (PlayerManager.get ⟨[]⟩ "g" "chan1").2 "g" "chan2" =
       ((PlayerManager.get ⟨[]⟩ "g" "chan1").1, (PlayerManager.get ⟨[]⟩ "g" "chan1").2)) ∧
    (PlayerManager.get (PlayerManager.get ⟨[]⟩ "g" "chan1").2 "g" "chan2").1.textChannel =
      "chan1" :=
  ⟨(registry_get_or_create_stable ⟨[]⟩ "g" "chan1" "chan2").1,
   ((registry_get_or_create_stable ⟨[]⟩ "g" "chan1" "chan2").2 (by decide)).2⟩

/-- C2: for a queued head track with a valid locator (and play-dl enabled),
the three acquisition strategies are attempted in the fixed order
primary / info-fallback / yt-dlp+ffmpeg, stopping at the first success with
no retries; a failure message is surfaced exactly when all three fail, and
in that case exactly one track — the head — is shifted off and the loop
continues with the new head. -/
theorem playback_fallback_chain (env : PlayEnv) (nowMs : Int) (q : GuildQueue)
    (cur : Track) (rest : List Track)
    (hs : q.songs = cur :: rest) (hurl : isYouTubeUrl cur.url = true)
    (hdp : env.disablePlaydl = false) :
    ((playStep env nowMs q).attempts =
       if env.primaryOk cur then [.primary]
       else if env.infoOk cur then [.primary, .infoFallback]
       else [.primary, .infoFallback, .ytdlpFfmpeg]) ∧
    ((playStep env nowMs q).outcome = .started ↔ stratSucceeds env cur = true) ∧
    ((playStep env nowMs q).outcome = .started →
       (playStep env nowMs q).state.songs = q.songs ∧
       (playStep env nowMs q).state.messages = q.messages) ∧
    (stratSucceeds env cur = false →
       (playStep env nowMs q).outcome = .advanced ∧
       (playStep env nowMs q).state.songs = rest ∧
       (playStep env nowMs q).state.messages =
         q.messages ++ ["All playback methods failed, skipping..."] ∧
       ∀ fuel, playLoopAux env nowMs (fuel + 1) q =
         playLoopAux env nowMs fuel (playStep env nowMs q).state) := by
  have hval : (¬ isYouTubeUrl cur.url) = False := by simp [hurl]
  cases hp : env.primaryOk cur with
  | true =>
    refine ⟨?_, ?_, ?_, ?_⟩ <;>
      simp [playStep, playStarted, hs, hurl, hdp, hp, stratSucceeds]
  | false =>
    cases hi : env.infoOk cur with
    | true =>
      refine ⟨?_, ?_, ?_, ?_⟩ <;>
        simp [playStep, playStarted, hs, hurl, hdp, hp, hi, stratSucceeds]
    | false =>
      cases hd : env.ytdlpDirect cur with
      | some u =>
        cases hf : env.ffmpegOk cur with
        | true =>
          refine ⟨?_, ?_, ?_, ?_⟩ <;>
            simp [playStep, playStarted, playFailed, hs, hurl, hdp, hp, hi, hd, hf,
              stratSucceeds]
        | false =>
          refine ⟨?_, ?_, ?_, ?_⟩ <;>
            simp [playStep, playStarted, playFailed, hs, hurl, hdp, hp, hi, hd, hf,
              stratSucceeds]
          intro fuel
          simp [playLoopAux, playStep, hs, hurl, hdp, hp, hi, hd, hf, playFailed]
      | none =>
        refine ⟨?_, ?_, ?_, ?_⟩ <;>
          simp [playStep, playStarted, playFailed, hs, hurl, hdp, hp, hi, hd,
            stratSucceeds]
        intro fuel
        simp [playLoopAux, playStep, hs, hurl, hdp, hp, hi, hd, playFailed]

/-- Witness for C2: with all oracles failing, one pass over a three-track
queue attempts the three strategies in order, advances exactly one track and
surfaces the single failure message. -/
theorem playback_fallback_chain_witness :
    (playStep envAllFail 1000 qThree).attempts =
      [.primary, .infoFallback, .ytdlpFfmpeg] ∧
    (playStep envAllFail 1000 qThree).outcome = .advanced ∧
    (playStep envAllFail 1000 qThree).state.songs = [trackB, trackC] ∧
    (playStep envAllFail 1000 qThree).state.messages =
      ["All playback methods failed, skipping..."] := by
  have h := playback_fallback_chain envAllFail 1000 qThree trackA [trackB, trackC]
    rfl (by decide) rfl
  have hfail := h.2.2.2 (by decide)
  refine ⟨?_, hfail.1, hfail.2.1, ?_⟩
  · rw [h.1]
    rfl
  · rw [hfail.2.2.1]
    rfl

/-- Replacing position `m` (known to hold `x`) by `a` is, up to permutation,
removing `x` and adding `a` at the front. -/
theorem getSet_perm : ∀ (t : List α) (m : Nat) (a x : α), t[m]? = some x →
    List.Perm (x :: t.set m a) (a :: t) := by
  intro t
  induction t with
  | nil => intro m a x hx; cases hx
  | cons b t' ih =>
    intro m a x hx
    cases m with
    | zero =>
      rw [List.getElem?_cons_zero] at hx
      obtain rfl : b = x := Option.some_inj.mp hx
      exact List.Perm.swap a b t'
    | succ k =>
      rw [List.getElem?_cons_succ] at hx
      exact ((List.Perm.swap b x (t'.set k a)).trans
        ((ih k a x hx).cons b)).trans (List.Perm.swap a b t')

/-- A Fisher–Yates swap permutes the list. -/
theorem swapL_perm (l : List α) (i j : Nat) : List.Perm (swapL l i j) l := by
  cases hi : l[i]? with
  | none => simp [swapL, hi]
  | some x =>
    cases hj : l[j]? with
    | none => simp [swapL, hi, hj]
    | some y =>
      have hred : swapL l i j = (l.set i y).set j x := by simp [swapL, hi, hj]
      rw [hred]
      by_cases hij : i = j
      · subst hij
        rw [List.set_set]
        have hx : x = y := Option.some_inj.mp (hi ▸ hj)
        subst hx
        exact (getSet_perm l i x x hi).cons_inv
      · have hj' : (l.set i y)[j]? = some y := by
          rw [List.getElem?_set_ne hij, hj]
        have p1 := getSet_perm (l.set i y) j x y hj'
        have p2 := getSet_perm l i y x hi
        exact (p1.trans p2).cons_inv

/-- The Fisher–Yates loop permutes the list, whatever the draws. -/
theorem fyAux_perm : ∀ (i : Nat) (cs : List Nat) (l : List α),
    List.Perm (fyAux l i cs) l := by
  intro i
  induction i with
  | zero => intro cs l; exact List.Perm.refl l
  | succ n ih =>
    intro cs l
    cases cs with
    | nil => exact List.Perm.refl l
    | cons j cs' => exact (ih cs' _).trans (swapL_perm l (n + 1) j)

/-- A swap leaves positions other than the two swapped ones unchanged. -/
theorem swapL_get_other {l : List α} {i j k : Nat} (hki : k ≠ i) (hkj : k ≠ j) :
    (swapL l i j)[k]? = l[k]? := by
  cases hi : l[i]? with
  | none => simp [swapL, hi]
  | some x =>
    cases hj : l[j]? with
    | none => simp [swapL, hi, hj]
    | some y =>
      have hred : swapL l i j = (l.set i y).set j x := by simp [swapL, hi, hj]
      rw [hred, List.getElem?_set_ne (Ne.symm hkj), List.getElem?_set_ne (Ne.symm hki)]

/-- After the swap at `i` with draw `j ≤ i`, position `i` holds the element
previously at position `j`. -/
theorem swapL_get_at {l : List α} {i j : Nat} (hj : j ≤ i) (hi : i < l.length) :
    (swapL l i j)[i]? = l[j]? := by
  have hjl : j < l.length := Nat.lt_of_le_of_lt hj hi
  have hix : l[i]? = some l[i] := List.getElem?_eq_getElem hi
  have hjx : l[j]? = some l[j] := List.getElem?_eq_getElem hjl
  by_cases hij : j = i
  · subst hij
    have hred : swapL l j j = (l.set j l[j]).set j l[j] := by simp [swapL, hjx]
    rw [hred, List.set_set, List.getElem?_set_eq_of_lt _ hjl, hjx]
  · have hred : swapL l i j = (l.set i l[j]).set j l[i] := by simp [swapL, hix, hjx]
    rw [hred, List.getElem?_set_ne hij, List.getElem?_set_eq_of_lt _ hi, hjx]

/-- The Fisher–Yates loop started at `i` with valid draws never touches
positions above `i`. -/
theorem fyAux_get_high {i : Nat} {cs : List Nat} (hv : ValidChoices i cs) :
    ∀ (l : List α) (k : Nat), i < k → (fyAux l i cs)[k]? = l[k]? := by
  induction hv with
  | zero => intro l k _; rfl
  | @cons i j cs hj hv ih =>
    intro l k hk
    have hstep : fyAux l (i + 1) (j :: cs) = fyAux (swapL l (i + 1) j) i cs := rfl
    rw [hstep, ih _ k (by omega)]
    exact swapL_get_other (by omega) (by omega)

/-- On a duplicate-free list, distinct valid draw sequences produce distinct
Fisher–Yates results (the standard unbiasedness argument: the draw space and
the arrangement space have the same size, so the map is one-to-one onto). -/
theorem fyAux_inj {i : Nat} {cs1 : List Nat} (hv1 : ValidChoices i cs1) :
    ∀ (l : List α) (cs2 : List Nat), l.Nodup → i < l.length → ValidChoices i cs2 →
      fyAux l i cs1 = fyAux l i cs2 → cs1 = cs2 := by
  induction hv1 with
  | zero =>
    intro l cs2 _ _ h2 _
    cases h2
    rfl
  | @cons i j1 cs1' hj1 hv1 ih =>
    intro l cs2 hnd hlen h2 heq
    cases h2 with
    | @cons _ j2 cs2' hj2 hv2 =>
      have e1 : (fyAux l (i + 1) (j1 :: cs1'))[i + 1]? = l[j1]? := by
        have hstep : fyAux l (i + 1) (j1 :: cs1') = fyAux (swapL l (i + 1) j1) i cs1' := rfl
        rw [hstep, fyAux_get_high hv1 _ _ (Nat.lt_succ_self i), swapL_get_at hj1 hlen]
      have e2 : (fyAux l (i + 1) (j2 :: cs2'))[i + 1]? = l[j2]? := by
        have hstep : fyAux l (i + 1) (j2 :: cs2') = fyAux (swapL l (i + 1) j2) i cs2' := rfl
        rw [hstep, fyAux_get_high hv2 _ _ (Nat.lt_succ_self i), swapL_get_at hj2 hlen]
      have hj1len : j1 < l.length := by omega
      have hj2len : j2 < l.length := by omega
      have hval : l[j1]? = l[j2]? := by rw [← e1, ← e2, heq]
      have hjj : j1 = j2 := by
        rw [List.getElem?_eq_getElem hj1len, List.getElem?_eq_getElem hj2len] at hval
        exact (List.Nodup.getElem_inj_iff hnd).mp (Option.some_inj.mp hval)
      subst hjj
      have heq' : fyAux (swapL l (i + 1) j1) i cs1' = fyAux (swapL l (i + 1) j1) i cs2' := heq
      have hnd' : (swapL l (i + 1) j1).Nodup :=
        ((swapL_perm l (i + 1) j1).nodup_iff).mpr hnd
      have hlen' : i < (swapL l (i + 1) j1).length := by
        rw [(swapL_perm l (i + 1) j1).length_eq]
        omega
      rw [ih _ _ hnd' hlen' hv2 heq']

/-- Counterexample to C5 as stated: `shuffle()` on an empty queue does not
leave the multiset of tracks unchanged — the destructuring re-insertion
stores a single undefined entry, growing `songs` from length 0 to 1. -/
theorem shuffle_empty_queue_adds_undefined :
    jsShuffle ([] : List (Option Track)) [] = [none] ∧
    (jsShuffle ([] : List (Option Track)) []).length ≠
      ([] : List (Option Track)).length :=
  ⟨rfl, by decide⟩

/-- C5 (amended): on a nonempty queue, `shuffle()` keeps `songs[0]` in place
and permutes the rest — the multiset of entries is unchanged for every
sequence of random draws — and on a duplicate-free queue the Fisher–Yates
loop maps distinct valid draw sequences to distinct arrangements (the
unbiasedness of the swap network); on an empty queue `shuffle()` instead
leaves a single undefined entry behind. -/
theorem shuffle_preserves_head_and_multiset :
    (∀ (x : Option Track) (l : List (Option Track)) (cs : List Nat),
       (jsShuffle (x :: l) cs).head? = some x ∧
       List.Perm (jsShuffle (x :: l) cs) (x :: l)) ∧
    (∀ (l : List (Option Track)) (cs1 cs2 : List Nat), l.Nodup →
       ValidChoices (l.length - 1) cs1 → ValidChoices (l.length - 1) cs2 →
       fyShuffle l cs1 = fyShuffle l cs2 → cs1 = cs2) ∧
    (∀ (cs : List Nat), jsShuffle ([] : List (Option Track)) cs = [none]) := by
  refine ⟨?_, ?_, ?_⟩
  · intro x l cs
    exact ⟨rfl, List.Perm.cons x (fyAux_perm (l.length - 1) cs l)⟩
  · intro l cs1 cs2 hnd h1 h2 heq
    cases l with
    | nil =>
      cases h1
      cases h2
      rfl
    | cons a t =>
      have hlen : (a :: t).length - 1 < (a :: t).length := by simp
      exact fyAux_inj h1 _ _ hnd hlen h2 heq
  · intro cs
    cases cs <;> rfl

/-- Witness for C5 (amended) at a three-track queue with draws `[0]`: head
kept, rest permuted to the reversed pair, and the draw sequence is pinned
down by the outcome. -/
theorem shuffle_preserves_head_and_multiset_witness :
    (jsShuffle [some trackA, some trackB, some trackC] [0]).head? = some (some trackA) ∧
    List.Perm (jsShuffle [some trackA, some trackB, some trackC] [0])
      [some trackA, some trackB, some trackC] ∧
    ([0] : List Nat) = [0] :=
  ⟨(shuffle_preserves_head_and_multiset.1 (some trackA) [some trackB, some trackC] [0]).1,
   (shuffle_preserves_head_and_multiset.1 (some trackA) [some trackB, some trackC] [0]).2,
   shuffle_preserves_head_and_multiset.2.1 [some trackB, some trackC] [0] [0]
     (by decide) (.cons (by omega) .zero) (.cons (by omega) .zero) rfl⟩


/-- The play-dl collection never exceeds the configured maximum. -/
theorem collectedOfPlaydl_length_le (pl : PlaydlPlaylist) (maxLen : Nat) :
    (collectedOfPlaydl pl maxLen).length ≤ maxLen := by
  obtain ⟨fp, va, ti⟩ := pl
  cases fp with
  | none =>
    cases va with
    | none => simp [collectedOfPlaydl]
    | some vs =>
      simp only [collectedOfPlaydl]
      split
      · rw [List.length_take]
        omega
      · simp
  | some pages =>
    cases va with
    | none =>
      simp only [collectedOfPlaydl]
      split
      · simp
      · rw [List.length_take]
        omega
    | some vs =>
      simp only [collectedOfPlaydl]
      split
      · rw [List.length_take]
        omega
      · rw [List.length_take]
        omega

/-- The yt-dlp collection never exceeds the configured maximum. -/
theorem collectedOfYtdlp_length_le (yd : YtdlpPlaylist) (maxLen : Nat) :
    (collectedOfYtdlp yd maxLen).length ≤ maxLen := by
  unfold collectedOfYtdlp
  exact le_trans (List.length_filterMap_le _ _) (by simp [List.length_take])

/-- A successful collection phase yields at most `maxLen` videos. -/
theorem collectPlaylist_ok_length {penv : PlaylistEnv} {maxLen : Nat}
    {title : String} {collected : List PlaylistVideo}
    (h : (collectPlaylist penv maxLen).1 = .ok (title, collected)) :
    collected.length ≤ maxLen := by
  unfold collectPlaylist at h
  cases hpd : penv.playdlResult with
  | ok pl =>
    rw [hpd] at h
    by_cases he : (collectedOfPlaydl pl maxLen).isEmpty
    · simp [he] at h
    · simp only [he, Bool.false_eq_true, if_false, Except.ok.injEq,
        Prod.mk.injEq] at h
      rw [← h.2]
      exact collectedOfPlaydl_length_le pl maxLen
  | error e1 =>
    rw [hpd] at h
    cases hyd : penv.ytdlpResult with
    | ok yd =>
      rw [hyd] at h
      by_cases he : (collectedOfYtdlp yd maxLen).isEmpty
      · simp [he] at h
      · simp only [he, Bool.false_eq_true, if_false, Except.ok.injEq,
          Prod.mk.injEq] at h
        rw [← h.2]
        exact collectedOfYtdlp_length_le yd maxLen
    | error e2 =>
      rw [hyd] at h
      simp at h

/-- The strategy trace of the playable-tracks phase equals that of the
collection phase. -/
theorem tracksOfPlaylist_attempts (penv : PlaylistEnv) (maxLen : Nat) (rb : String) :
    (tracksOfPlaylist penv maxLen rb).2 = (collectPlaylist penv maxLen).2 := by
  unfold tracksOfPlaylist
  dsimp only
  split
  · rfl
  · split <;> rfl

/-- A successful playable-tracks phase yields a nonempty list of at most
`maxLen` tracks. -/
theorem tracksOfPlaylist_ok {penv : PlaylistEnv} {maxLen : Nat} {rb : String}
    {title : String} {tracks : List Track}
    (h : (tracksOfPlaylist penv maxLen rb).1 = .ok (title, tracks)) :
    tracks.length ≤ maxLen ∧ tracks ≠ [] := by
  unfold tracksOfPlaylist at h
  cases hc : (collectPlaylist penv maxLen).1 with
  | error e =>
    simp only [hc] at h
    cases h
  | ok pr =>
    obtain ⟨t0, c0⟩ := pr
    simp only [hc] at h
    by_cases he : (c0.filterMap (createTrackFromPlaylistVideo rb t0)).isEmpty
    · simp [he] at h
    · simp only [he, Bool.false_eq_true, if_false, Except.ok.injEq,
        Prod.mk.injEq] at h
      rw [← h.2]
      refine ⟨le_trans (List.length_filterMap_le _ _) (collectPlaylist_ok_length hc), ?_⟩
      intro hnil
      rw [hnil] at he
      exact he rfl

/-- A successful playable-tracks phase determines the playlist summary and
the enqueue of exactly those tracks. -/
theorem queueYouTubePlaylist_of_ok {penv : PlaylistEnv} {env : PlayEnv}
    {maxLen : Nat} {rb : String} {nowMs : Int} {q : GuildQueue}
    {title : String} {t : Track} {ts : List Track}
    (h : (tracksOfPlaylist penv maxLen rb).1 = .ok (title, t :: ts)) :
    queueYouTubePlaylist penv env maxLen rb nowMs q =
      (.ok (.playlistRes title (t :: ts).length t), enqueue env nowMs (t :: ts) q,
        (tracksOfPlaylist penv maxLen rb).2) := by
  unfold queueYouTubePlaylist
  simp only [h]

/-- Counterexample to C6 as stated: when the primary (play-dl) listing
succeeds but yields zero videos, the add fails with `Playlist has no videos`
without ever attempting the secondary (yt-dlp) strategy — even though the
secondary listing had a playable entry for the same playlist. -/
theorem playlist_failure_without_secondary_attempt :
    (tracksOfPlaylist penvEmptyPrimary 400 "u").1 = .error "Playlist has no videos" ∧
    (tracksOfPlaylist penvEmptyPrimary 400 "u").2 = [.playdlList] ∧
    (tracksOfPlaylist { playdlResult := .error "boom", ytdlpResult := .ok ydOneSong }
        400 "u").1 =
      .ok ("T", [{ title := "Song", url := "https://www.youtube.com/watch?v=abc",
                   requestedBy := "u", duration := some 100, thumbnail := none,
                   artist := some "Up" }]) := by
  refine ⟨by decide, by decide, by decide⟩

/-- C6 (amended): `MAX_PLAYLIST_LENGTH` defaults to 400; a successful
playlist add appends at most `MAX_PLAYLIST_LENGTH` tracks (unplayable items
silently dropped) and reports `trackCount` equal to the number actually
appended; the secondary (yt-dlp) listing strategy is attempted exactly when
the primary (play-dl) one throws — so a primary listing that succeeds with
zero usable items fails the add without the secondary being tried. -/
theorem playlist_cap_and_strategy_order :
    maxPlaylistLengthOf none = 400 ∧
    (∀ (penv : PlaylistEnv) (maxLen : Nat) (rb title : String) (tracks : List Track),
       (tracksOfPlaylist penv maxLen rb).1 = .ok (title, tracks) →
       tracks.length ≤ maxLen ∧ tracks ≠ []) ∧
    (∀ (penv : PlaylistEnv) (env : PlayEnv) (maxLen : Nat) (rb title : String)
       (t : Track) (ts : List Track) (nowMs : Int) (q : GuildQueue),
       (tracksOfPlaylist penv maxLen rb).1 = .ok (title, t :: ts) →
       queueYouTubePlaylist penv env maxLen rb nowMs q =
         (.ok (.playlistRes title (t :: ts).length t), enqueue env nowMs (t :: ts) q,
           (tracksOfPlaylist penv maxLen rb).2)) ∧
    (∀ (penv : PlaylistEnv) (maxLen : Nat) (rb : String),
       (∀ pl, penv.playdlResult = .ok pl →
          (tracksOfPlaylist penv maxLen rb).2 = [.playdlList]) ∧
       (∀ e, penv.playdlResult = .error e →
          (tracksOfPlaylist penv maxLen rb).2 = [.playdlList, .ytdlpList])) := by
  refine ⟨by decide, ?_, ?_, ?_⟩
  · intro penv maxLen rb title tracks h
    exact tracksOfPlaylist_ok h
  · intro penv env maxLen rb title t ts nowMs q h
    exact queueYouTubePlaylist_of_ok h
  · intro penv maxLen rb
    constructor
    · intro pl hpl
      rw [tracksOfPlaylist_attempts]
      unfold collectPlaylist
      rw [hpl]
      dsimp only
      split <;> rfl
    · intro e he
      rw [tracksOfPlaylist_attempts]
      unfold collectPlaylist
      rw [he]
      cases hyd : penv.ytdlpResult with
      | ok yd =>
        dsimp only
        split <;> rfl
      | error e2 => rfl

/-- Witness for C6 (amended) on a two-video playlist: both tracks appended,
summary counts two, only the primary listing attempted. -/
theorem playlist_cap_and_strategy_order_witness :
    maxPlaylistLengthOf none = 400 ∧
    ([trackA, trackB].length ≤ 400 ∧ [trackA, trackB] ≠ []) ∧
    queueYouTubePlaylist penvTwoSongs envPrimaryOK 400 "u" 1000 (GuildQueue.init "g" "c") =
      (.ok (.playlistRes "Mix" (trackA :: [trackB]).length trackA),
        enqueue envPrimaryOK 1000 (trackA :: [trackB]) (GuildQueue.init "g" "c"),
        (tracksOfPlaylist penvTwoSongs 400 "u").2) ∧
    (tracksOfPlaylist penvTwoSongs 400 "u").2 = [.playdlList] :=
  ⟨playlist_cap_and_strategy_order.1,
   playlist_cap_and_strategy_order.2.1 penvTwoSongs 400 "u" "Mix" [trackA, trackB]
     (by decide),
   playlist_cap_and_strategy_order.2.2.1 penvTwoSongs envPrimaryOK 400 "u" "Mix"
     trackA [trackB] 1000 (GuildQueue.init "g" "c") (by decide),
   (playlist_cap_and_strategy_order.2.2.2 penvTwoSongs 400 "u").1
     { fetchedPages :=
         some [[{ url := some "https://www.youtube.com/watch?v=aaa", id := none,
                  title := some "A", durationInSec := some 10, durationNum := none,
                  thumbs := .nil, channelName := none, authorName := none },
                { url := some "https://www.youtube.com/watch?v=bbb", id := none,
                  title := some "B", durationInSec := some 20, durationNum := none,
                  thumbs := .nil, channelName := none, authorName := none }]],
       videosArr := none, title := some "Mix" } rfl⟩

/-- C7: every failing `add` (bad link, no search results, unsupported or
empty Spotify resource, unplayable resolved URL, failed playlist expansion)
throws without touching the queue state — no track appended, no playback
started; and failure of the best-effort metadata enrichment never fails the
add — the track is appended with its metadata fields left null. -/
theorem add_failure_leaves_queue_unchanged :
    (∀ (env : AddEnv) (query : String) (member : Option String) (nowMs : Int)
       (q : GuildQueue) (e : String),
       (addFull env query member nowMs q).1 = .error e →
       (addFull env query member nowMs q).2 = q) ∧
    (∀ (env : AddEnv) (query : String) (member : Option String) (nowMs : Int)
       (q : GuildQueue) (e1 e2 : String),
       spotifyPat query = false → httpPat query = true → isYouTubeUrl query = true →
       listPat query = false → query ≠ "" →
       env.basicInfo query = .error e1 → env.ytdlpMeta query = .error e2 →
       (addFull env query member nowMs q).1 =
         .ok (.trackRes query query ⟨none, none, none⟩) ∧
       (addFull env query member nowMs q).2 =
         enqueue env.playEnv nowMs
           [{ title := query, url := query, requestedBy := member.getD "Unknown",
              duration := none, thumbnail := none, artist := none }] q) := by
  constructor
  · intro env query member nowMs q e h
    unfold addFull at h ⊢
    by_cases hq : query = ""
    · simp [hq]
    · simp only [hq, if_false] at h ⊢
      cases hr : resolveAdd env query (member.getD "Unknown") nowMs q with
      | error e2 => simp [hr]
      | ok ro =>
        cases ro with
        | playlistDone res q1 =>
          rw [hr] at h
          cases h
        | single url? title artist0 =>
          cases url? with
          | none => simp [hr]
          | some url =>
            by_cases hu : isYouTubeUrl url
            · rw [hr] at h
              simp only [hu, Bool.not_true, if_false] at h
              cases h
            · simp [hr, hu]
  · intro env query member nowMs q e1 e2 hsp hhttp hyt hlist hq hbi hyd
    have h1 : resolveAdd env query (member.getD "Unknown") nowMs q =
        .ok (.single (some query) query none) := by
      unfold resolveAdd
      rw [hbi]
      simp [hsp, hhttp, hyt, hlist]
    have hm : enrichMeta env.disablePlaydl (env.basicInfo query)
        (env.ytdlpMeta query) ⟨none, none, none⟩ = ⟨none, none, none⟩ := by
      rw [hbi, hyd]
      cases env.disablePlaydl <;> rfl
    unfold addFull
    simp only [hq, if_false, ite_false, h1, hyt, not_true, Bool.not_true, hm]
    first
    | exact ⟨trivial, rfl⟩
    | exact ⟨rfl, trivial⟩
    | exact ⟨rfl, rfl⟩
    | trivial

/-- Witness for C7: a failing free-text search leaves a three-track queue
untouched, and an add whose both metadata lookups fail still succeeds with
all metadata fields null. -/
theorem add_failure_leaves_queue_unchanged_witness :
    (addFull addEnvA "hello" (some "u") 1000 qThree).2 = qThree ∧
    (addFull { addEnvA with basicInfo := fun _ => .error "nope" }
        "https://www.youtube.com/watch?v=aaa" (some "u") 1000
        (GuildQueue.init "g" "c")).1 =
      .ok (.trackRes "https://www.youtube.com/watch?v=aaa"
        "https://www.youtube.com/watch?v=aaa" ⟨none, none, none⟩) :=
  ⟨add_failure_leaves_queue_unchanged.1 addEnvA "hello" (some "u") 1000 qThree
     "Search failed: offline" (by decide),
   (add_failure_leaves_queue_unchanged.2 { addEnvA with basicInfo := fun _ => .error "nope" }
     "https://www.youtube.com/watch?v=aaa" (some "u") 1000 (GuildQueue.init "g" "c")
     "nope" "offline" (by decide) (by decide) (by decide) (by decide) (by decide)
     rfl rfl).1⟩

/-- The songs list after the `_playCurrent` loop depends only on the songs
list and the pipeline oracles. -/
theorem playLoopAux_songs (env : PlayEnv) (nowMs : Int) :
    ∀ (fuel : Nat) (q : GuildQueue),
      (playLoopAux env nowMs fuel q).songs = playSongs env fuel q.songs := by
  intro fuel
  induction fuel with
  | zero => intro q; rfl
  | succ n ih =>
    intro q
    cases hs : q.songs with
    | nil => simp [playLoopAux, playStep, hs, playSongs]
    | cons cur rest =>
      by_cases hurl : isYouTubeUrl cur.url
      · cases hd : env.disablePlaydl with
        | true =>
          cases hyd : env.ytdlpDirect cur with
          | some u =>
            cases hf : env.ffmpegOk cur with
            | true =>
              simp [playLoopAux, playStep, hs, hurl, hd, hyd, hf, playStarted,
                playSongs, stratSucceeds]
            | false =>
              simp [playLoopAux, playStep, hs, hurl, hd, hyd, hf, playFailed,
                playSongs, stratSucceeds, ih]
          | none =>
            simp [playLoopAux, playStep, hs, hurl, hd, hyd, playFailed, playSongs,
              stratSucceeds, ih]
        | false =>
          cases hp : env.primaryOk cur with
          | true =>
            simp [playLoopAux, playStep, hs, hurl, hd, hp, playStarted, playSongs,
              stratSucceeds]
          | false =>
            cases hi : env.infoOk cur with
            | true =>
              simp [playLoopAux, playStep, hs, hurl, hd, hp, hi, playStarted,
                playSongs, stratSucceeds]
            | false =>
              cases hyd : env.ytdlpDirect cur with
              | some u =>
                cases hf : env.ffmpegOk cur with
                | true =>
                  simp [playLoopAux, playStep, hs, hurl, hd, hp, hi, hyd, hf,
                    playStarted, playSongs, stratSucceeds]
                | false =>
                  simp [playLoopAux, playStep, hs, hurl, hd, hp, hi, hyd, hf,
                    playFailed, playSongs, stratSucceeds, ih]
              | none =>
                simp [playLoopAux, playStep, hs, hurl, hd, hp, hi, hyd,
                  playFailed, playSongs, stratSucceeds, ih]
      · simp [playLoopAux, playStep, hs, hurl, playSongs, ih]

/-- Counterexample to C3 as stated: a fatal player error on the last queued
track does not advance "exactly as on natural track end" — both empty the
songs list, but natural track end resets the timing state and sends the
queue-ended notification while the error handler leaves the stale timing
state in place and sends the error notification instead; the two resulting
states differ. -/
theorem error_handler_not_exact_track_end :
    (onError envAllFail "Status code: 403" 2000 qPlayingA).songs =
      (onIdle envAllFail 2000 qPlayingA).songs ∧
    (onError envAllFail "Status code: 403" 2000 qPlayingA).currentStartMs = 1000 ∧
    (onIdle envAllFail 2000 qPlayingA).currentStartMs = 0 ∧
    (onIdle envAllFail 2000 qPlayingA).messages = ["Queue ended."] ∧
    (onError envAllFail "Status code: 403" 2000 qPlayingA).messages =
      ["Playback error: Status code: 403"] ∧
    onError envAllFail "Status code: 403" 2000 qPlayingA ≠
      onIdle envAllFail 2000 qPlayingA := by
  decide

/-- C3 (amended): a player error whose message matches the transient
pattern (aborted / premature close / socket hang up) leaves the whole state
— songs, current track, timing — unchanged with no skip; a non-transient
error removes the head exactly once and attempts the new head, evolving the
songs list exactly as the natural track-end handler does, but unlike
natural track end it does not itself reset the timing state (observable
when the queue empties: the stale timing fields remain) and sends no
queue-ended notification. -/
theorem error_handler_transient_and_fatal (env : PlayEnv) (msg : String)
    (nowMs : Int) (q : GuildQueue) :
    (isStreamError msg = true → onError env msg nowMs q = q) ∧
    (isStreamError msg = false →
       ((q.isTransitioning = false →
          (onError env msg nowMs q).songs = (onIdle env nowMs q).songs) ∧
        (q.songs.tail = [] →
          (onError env msg nowMs q).currentStartMs = q.currentStartMs ∧
          (onError env msg nowMs q).pausedAtMs = q.pausedAtMs ∧
          (onError env msg nowMs q).accumulatedPauseMs = q.accumulatedPauseMs ∧
          (onError env msg nowMs q).songs = []))) := by
  constructor
  · intro h
    simp [onError, h]
  · intro h
    constructor
    · intro hT
      cases hs : q.songs with
      | nil => simp [onError, onIdle, h, hT, hs]
      | cons a rest =>
        cases rest with
        | nil => simp [onError, onIdle, h, hT, hs]
        | cons b rest2 =>
          simp only [onError, onIdle, h, hT, hs, Bool.false_eq_true, if_false,
            List.tail_cons]
          rw [show (playLoop env nowMs
              { q with messages := q.messages ++ ["Playback error: " ++ msg],
                       playerStatus := .idle, isTransitioning := false,
                       songs := b :: rest2 }).songs =
            playSongs env (b :: rest2).length (b :: rest2) from
              playLoopAux_songs env nowMs _ _]
          rw [show (playLoop env nowMs
              { q with playerStatus := .idle, songs := b :: rest2,
                       currentStartMs := 0, pausedAtMs := none,
                       accumulatedPauseMs := 0, currentResource := none,
                       nowPlayingMsg := false, isTransitioning := false }).songs =
            playSongs env (b :: rest2).length (b :: rest2) from
              playLoopAux_songs env nowMs _ _]
    · intro hT
      cases hs : q.songs with
      | nil =>
        rw [hs] at hT
        simp [onError, h, hs]
      | cons a rest =>
        rw [hs] at hT
        simp only [List.tail_cons] at hT
        simp [onError, h, hs, hT]

/-- Witness for C3 (amended) at the single-track playing state: a transient
error changes nothing; a fatal error empties the songs list exactly like
natural track end while keeping the stale timing state. -/
theorem error_handler_transient_and_fatal_witness :
    onError envAllFail "premature close" 2000 qPlayingA = qPlayingA ∧
    (onError envAllFail "Status code: 403" 2000 qPlayingA).songs =
      (onIdle envAllFail 2000 qPlayingA).songs ∧
    (onError envAllFail "Status code: 403" 2000 qPlayingA).currentStartMs =
      qPlayingA.currentStartMs :=
  ⟨(error_handler_transient_and_fatal envAllFail "premature close" 2000 qPlayingA).1
     (by decide),
   ((error_handler_transient_and_fatal envAllFail "Status code: 403" 2000 qPlayingA).2
     (by decide)).1 (by decide),
   (((error_handler_transient_and_fatal envAllFail "Status code: 403" 2000 qPlayingA).2
     (by decide)).2 (by decide)).1⟩

/-- One unfolding of the `_playCurrent` loop. -/
theorem playLoopAux_succ (env : PlayEnv) (nowMs : Int) (n : Nat) (q : GuildQueue) :
    playLoopAux env nowMs (n + 1) q =
      (if (playStep env nowMs q).outcome = .advanced
       then playLoopAux env nowMs n (playStep env nowMs q).state
       else (playStep env nowMs q).state) := by
  cases hstep : playStep env nowMs q with
  | mk st out atts =>
    cases out <;> simp [playLoopAux, hstep]

/-- Exhaustive description of one `_playCurrent` pass: either the queue was
empty and nothing happened, or the head was started (becoming the loaded and
last-started track), or the head was dropped with the transport status and
pause bookkeeping soundness carried over. -/
theorem playStep_cases (env : PlayEnv) (nowMs : Int) (q : GuildQueue) :
    ((playStep env nowMs q).outcome = .noTrack ∧ (playStep env nowMs q).state = q ∧
      q.songs = []) ∨
    ((playStep env nowMs q).outcome = .started ∧
      (playStep env nowMs q).state.songs = q.songs ∧
      (playStep env nowMs q).state.lastStarted = q.songs.head? ∧
      (playStep env nowMs q).state.playerStatus = .playing ∧
      (playStep env nowMs q).state.paused = false ∧ q.songs ≠ []) ∨
    ((playStep env nowMs q).outcome = .advanced ∧
      (playStep env nowMs q).state.songs = q.songs.tail ∧
      (playStep env nowMs q).state.playerStatus = q.playerStatus ∧
      (playStep env nowMs q).state.lastStarted = q.lastStarted ∧
      (pausedClause q → pausedClause (playStep env nowMs q).state)) := by
  have pcTransfer : ∀ st : GuildQueue,
      st.paused = q.paused → st.pausedAtMs = q.pausedAtMs →
      st.currentStartMs = q.currentStartMs → pausedClause q → pausedClause st := by
    intro st e1 e2 e3 hpc hp
    rw [e1] at hp
    rcases hpc hp with ⟨p, hpp, hz⟩ | ⟨hn, hz⟩
    · exact Or.inl ⟨p, by rw [e2]; exact hpp, hz⟩
    · exact Or.inr ⟨by rw [e2]; exact hn, by rw [e3]; exact hz⟩
  have pcFalse : ∀ st : GuildQueue, st.paused = false →
      pausedClause q → pausedClause st := by
    intro st e1 _ hp
    rw [e1] at hp
    exact Bool.noConfusion hp
  cases hs : q.songs with
  | nil =>
    refine Or.inl ⟨?_, ?_, rfl⟩ <;> simp [playStep, hs]
  | cons cur rest =>
    by_cases hurl : isYouTubeUrl cur.url
    · cases hd : env.disablePlaydl with
      | true =>
        cases hyd : env.ytdlpDirect cur with
        | some u =>
          cases hf : env.ffmpegOk cur with
          | true =>
            refine Or.inr (Or.inl ⟨?_, ?_, ?_, ?_, ?_, by simp [hs]⟩) <;>
              simp [playStep, playStarted, hs, hurl, hd, hyd, hf]
          | false =>
            refine Or.inr (Or.inr ⟨?_, ?_, ?_, ?_,
              pcFalse _ (by simp [playStep, playFailed, hs, hurl, hd, hyd, hf])⟩) <;>
              simp [playStep, playFailed, hs, hurl, hd, hyd, hf]
        | none =>
          refine Or.inr (Or.inr ⟨?_, ?_, ?_, ?_,
            pcFalse _ (by simp [playStep, playFailed, hs, hurl, hd, hyd])⟩) <;>
            simp [playStep, playFailed, hs, hurl, hd, hyd]
      | false =>
        cases hp : env.primaryOk cur with
        | true =>
          refine Or.inr (Or.inl ⟨?_, ?_, ?_, ?_, ?_, by simp [hs]⟩) <;>
            simp [playStep, playStarted, hs, hurl, hd, hp]
        | false =>
          cases hi : env.infoOk cur with
          | true =>
            refine Or.inr (Or.inl ⟨?_, ?_, ?_, ?_, ?_, by simp [hs]⟩) <;>
              simp [playStep, playStarted, hs, hurl, hd, hp, hi]
          | false =>
            cases hyd : env.ytdlpDirect cur with
            | some u =>
              cases hf : env.ffmpegOk cur with
              | true =>
                refine Or.inr (Or.inl ⟨?_, ?_, ?_, ?_, ?_, by simp [hs]⟩) <;>
                  simp [playStep, playStarted, hs, hurl, hd, hp, hi, hyd, hf]
              | false =>
                refine Or.inr (Or.inr ⟨?_, ?_, ?_, ?_, pcFalse _
                  (by simp [playStep, playFailed, hs, hurl, hd, hp, hi, hyd, hf])⟩) <;>
                  simp [playStep, playFailed, hs, hurl, hd, hp, hi, hyd, hf]
            | none =>
              refine Or.inr (Or.inr ⟨?_, ?_, ?_, ?_, pcFalse _
                (by simp [playStep, playFailed, hs, hurl, hd, hp, hi, hyd])⟩) <;>
                simp [playStep, playFailed, hs, hurl, hd, hp, hi, hyd]
    · refine Or.inr (Or.inr ⟨?_, ?_, ?_, ?_, pcTransfer _
        (by simp [playStep, hs, hurl]) (by simp [playStep, hs, hurl])
        (by simp [playStep, hs, hurl])⟩) <;>
        simp [playStep, hs, hurl]

/-- Running the `_playCurrent` loop from an idle transport establishes the
queue invariant. -/
theorem playLoopAux_inv (env : PlayEnv) (nowMs : Int) :
    ∀ (fuel : Nat) (q : GuildQueue), q.playerStatus = .idle →
      q.songs.length ≤ fuel → pausedClause q →
      InvQ (playLoopAux env nowMs fuel q) := by
  intro fuel
  induction fuel with
  | zero =>
    intro q hst hlen hpc
    have hnil : q.songs = [] := List.length_eq_zero.mp (Nat.le_zero.mp hlen)
    show InvQ q
    exact ⟨fun _ => hst, fun t ht => absurd ht (by simp [hnil]), hpc⟩
  | succ n ih =>
    intro q hst hlen hpc
    rw [playLoopAux_succ]
    rcases playStep_cases env nowMs q with
      ⟨ho, hstate, hnil⟩ | ⟨ho, hsongs, hlast, hps, hpd, hne⟩ |
      ⟨ho, hsongs, hps, hlast, hpcT⟩
    · rw [ho, if_neg (by decide), hstate]
      exact ⟨fun _ => hst, fun t ht => absurd ht (by simp [hnil]), hpc⟩
    · rw [ho, if_neg (by decide)]
      refine ⟨?_, ?_, ?_⟩
      · intro h
        rw [hsongs] at h
        exact absurd h hne
      · intro t ht
        rw [hsongs] at ht
        rw [hlast, ht]
      · intro hp
        rw [hpd] at hp
        exact Bool.noConfusion hp
    · rw [ho, if_pos rfl]
      refine ih _ ?_ ?_ (hpcT hpc)
      · rw [hps, hst]
      · rw [hsongs]
        rcases hq : q.songs with _ | ⟨a, t⟩
        · simp
        · rw [hq] at hlen
          simp only [List.length_cons] at hlen
          simp only [List.tail_cons]
          omega

/-- Appending tracks and starting playback when idle preserves the queue
invariant. -/
theorem enqueue_inv (env : PlayEnv) (nowMs : Int) (ts : List Track)
    (q : GuildQueue) (h : InvQ q) : InvQ (enqueue env nowMs ts q) := by
  unfold enqueue
  by_cases hst : q.playerStatus = .idle
  · rw [if_pos (by exact hst)]
    exact playLoopAux_inv env nowMs _ _ hst le_rfl h.2.2
  · rw [if_neg (by exact hst)]
    refine ⟨?_, ?_, ?_⟩
    · intro hn
      obtain ⟨h1, -⟩ := List.append_eq_nil.mp hn
      exact h.1 h1
    · intro t ht
      cases hqs : q.songs with
      | nil => exact absurd (h.1 hqs) hst
      | cons a l =>
        have : ({ q with songs := q.songs ++ ts } : GuildQueue).songs.head? = some a := by
          simp [hqs]
        rw [this] at ht
        exact h.2.1 t (by rw [hqs]; rw [Option.some_inj.mp ht]; rfl)
    · exact h.2.2

/-- A successful playlist queue call leaves the state as an enqueue of the
resolved tracks. -/
theorem queueYouTubePlaylist_ok_state {penv : PlaylistEnv} {env : PlayEnv}
    {maxLen : Nat} {rb : String} {nowMs : Int} {q : GuildQueue} {res : AddResult}
    (h : (queueYouTubePlaylist penv env maxLen rb nowMs q).1 = .ok res) :
    ∃ ts, (queueYouTubePlaylist penv env maxLen rb nowMs q).2.1 =
      enqueue env nowMs ts q := by
  unfold queueYouTubePlaylist at h ⊢
  cases hr : (tracksOfPlaylist penv maxLen rb).1 with
  | error e => simp [hr] at h
  | ok pr =>
    obtain ⟨t0, l0⟩ := pr
    cases l0 with
    | nil => simp [hr] at h
    | cons t ts => exact ⟨t :: ts, by simp [hr]⟩

/-- A playlist-path resolution result records an enqueue of the resolved
tracks. -/
theorem resolveAdd_playlistDone {env : AddEnv} {query rb : String} {nowMs : Int}
    {q : GuildQueue} {res : AddResult} {q1 : GuildQueue}
    (h : resolveAdd env query rb nowMs q = .ok (.playlistDone res q1)) :
    ∃ ts, q1 = enqueue env.playEnv nowMs ts q := by
  unfold resolveAdd at h
  by_cases hsp : spotifyPat query
  · rw [if_pos hsp] at h
    cases hspo : env.spotify with
    | error e => simp [hspo] at h
    | ok info =>
      cases info with
      | track t =>
        cases hse : env.search (t.name ++ " " ++ joinWith " " t.artistNames) with
        | error e => simp [hspo, hse] at h
        | ok res2 =>
          cases res2 with
          | nil => simp [hspo, hse] at h
          | cons v vs => simp [hspo, hse] at h
      | playlist tracks =>
        cases tracks with
        | nil => simp [hspo] at h
        | cons first rest =>
          cases hse : env.search (first.name ++ " " ++ joinWith " " first.artistNames) with
          | error e => simp [hspo, hse] at h
          | ok res2 =>
            cases res2 with
            | nil => simp [hspo, hse] at h
            | cons v vs => simp [hspo, hse] at h
      | other => simp [hspo] at h
  · rw [if_neg hsp] at h
    by_cases hht : httpPat query
    · rw [if_pos hht] at h
      by_cases hyt : isYouTubeUrl query
      · rw [if_neg (by simp [hyt])] at h
        by_cases hl : listPat query
        · rw [if_pos hl] at h
          cases hq1 : (queueYouTubePlaylist env.playlistEnv env.playEnv
              env.maxPlaylistLength rb nowMs q).1 with
          | error e => simp [hq1] at h
          | ok res2 =>
            simp only [hq1, Except.ok.injEq, ResolveOut.playlistDone.injEq] at h
            obtain ⟨ts, hts⟩ := queueYouTubePlaylist_ok_state hq1
            exact ⟨ts, h.2 ▸ hts⟩
        · rw [if_neg hl] at h
          cases hbi : env.basicInfo query with
          | ok vd => simp [hbi] at h
          | error e => simp [hbi] at h
      · rw [if_pos (by simp [hyt])] at h
        cases h
    · rw [if_neg hht] at h
      cases hse : env.search query with
      | error e => simp [hse] at h
      | ok res2 =>
        cases res2 with
        | nil => simp [hse] at h
        | cons v vs => simp [hse] at h

/-- `add` preserves the queue invariant. -/
theorem addFull_inv (env : AddEnv) (query : String) (member : Option String)
    (nowMs : Int) (q : GuildQueue) (h : InvQ q) :
    InvQ (addFull env query member nowMs q).2 := by
  unfold addFull
  by_cases hq : query = ""
  · simp only [hq, if_true]
    exact h
  · simp only [hq, if_false]
    cases hr : resolveAdd env query (member.getD "Unknown") nowMs q with
    | error e =>
      simp only [hr]
      exact h
    | ok ro =>
      cases ro with
      | playlistDone res q1 =>
        obtain ⟨ts, rfl⟩ := resolveAdd_playlistDone hr
        simp only [hr]
        exact enqueue_inv env.playEnv nowMs ts q h
      | single url? title artist0 =>
        cases url? with
        | none =>
          simp only [hr]
          exact h
        | some url =>
          by_cases hu : isYouTubeUrl url
          · simp only [hr, hu, Bool.not_true, if_false, ite_false]
            exact enqueue_inv env.playEnv nowMs _ q h
          · simp only [hr, hu, Bool.not_false, if_true, ite_true]
            exact h

/-- The track-end handler preserves the queue invariant. -/
theorem onIdle_inv (env : PlayEnv) (nowMs : Int) (q : GuildQueue) (h : InvQ q) :
    InvQ (onIdle env nowMs q) := by
  unfold onIdle
  by_cases hT : q.isTransitioning
  · rw [if_pos (by exact hT)]
    exact ⟨fun _ => rfl, fun t ht => h.2.1 t ht, h.2.2⟩
  · rw [if_neg (by exact hT)]
    cases hs : q.songs with
    | nil =>
      refine ⟨fun _ => rfl, ?_, h.2.2⟩
      intro t ht
      simp at ht
    | cons a rest =>
      cases rest with
      | nil =>
        refine ⟨fun _ => rfl, ?_, ?_⟩
        · intro t ht
          cases ht
        · intro hp
          exact Or.inr ⟨rfl, rfl⟩
      | cons b rest2 =>
        refine playLoopAux_inv env nowMs _ _ rfl le_rfl ?_
        intro hp
        exact Or.inr ⟨rfl, rfl⟩

/-- The player error handler preserves the queue invariant. -/
theorem onError_inv (env : PlayEnv) (msg : String) (nowMs : Int) (q : GuildQueue)
    (h : InvQ q) : InvQ (onError env msg nowMs q) := by
  unfold onError
  by_cases hmsg : isStreamError msg
  · rw [if_pos (by exact hmsg)]
    exact h
  · rw [if_neg (by exact hmsg)]
    cases ht : q.songs.tail with
    | nil =>
      refine ⟨fun _ => rfl, ?_, h.2.2⟩
      intro t hh
      simp at hh
    | cons b rest2 =>
      exact playLoopAux_inv env nowMs _ _ rfl le_rfl h.2.2

/-- Every well-timed event preserves the queue invariant. -/
theorem stepEv_inv (e : Event) (q : GuildQueue) (h : InvQ q) (hok : eventOK e) :
    InvQ (stepEv e q) := by
  cases e with
  | addE env query member nowMs => exact addFull_inv env query member nowMs q h
  | idleE env nowMs => exact onIdle_inv env nowMs q h
  | errorE env msg nowMs => exact onError_inv env msg nowMs q h
  | skipE =>
    show InvQ (q.skip).1
    unfold GuildQueue.skip
    cases hs : q.songs with
    | nil => exact h
    | cons a rest =>
      refine ⟨?_, ?_, h.2.2⟩
      · intro hn
        cases hn
      · intro t ht
        refine h.2.1 t ?_
        rw [hs]
        exact ht
  | stopE =>
    show InvQ q.stop
    unfold GuildQueue.stop
    refine ⟨fun _ => rfl, ?_, h.2.2⟩
    intro t ht
    simp at ht
  | pauseE nowMs =>
    show InvQ (GuildQueue.pause nowMs q).1
    unfold GuildQueue.pause
    by_cases hst : q.playerStatus = .playing
    · rw [if_pos (by exact hst)]
      have hne : ∀ hn : q.songs = [], False := by
        intro hn
        have := h.1 hn
        rw [hst] at this
        cases this
      by_cases hpd : q.paused
      · simp only [hpd, if_true]
        exact ⟨fun hn => absurd hn (fun hn => hne hn), h.2.1, fun _ => h.2.2 hpd⟩
      · simp only [hpd, Bool.false_eq_true, if_false]
        refine ⟨fun hn => absurd hn (fun hn => hne hn), h.2.1, ?_⟩
        intro _
        refine Or.inl ⟨nowMs, rfl, ?_⟩
        have : (0 : Int) < nowMs := hok
        omega
    · rw [if_neg (by exact hst)]
      exact h
  | resumeE nowMs =>
    show InvQ (GuildQueue.resume nowMs q).1
    unfold GuildQueue.resume
    by_cases hst : q.playerStatus = .paused
    · rw [if_pos (by exact hst)]
      have hne : ∀ hn : q.songs = [], False := by
        intro hn
        have := h.1 hn
        rw [hst] at this
        cases this
      cases hpa : q.pausedAtMs with
      | none =>
        refine ⟨fun hn => absurd hn (fun hn => hne hn), h.2.1, ?_⟩
        intro hp
        cases hp
      | some p =>
        by_cases hz : p = 0
        · simp only [hz, if_pos rfl]
          refine ⟨fun hn => absurd hn (fun hn => hne hn), h.2.1, ?_⟩
          intro hp
          cases hp
        · simp only [hz, if_neg hz]
          refine ⟨fun hn => absurd hn (fun hn => hne hn), h.2.1, ?_⟩
          intro hp
          cases hp
    · rw [if_neg (by exact hst)]
      exact h
  | shuffleE cs =>
    show InvQ (GuildQueue.shuffle cs q)
    unfold GuildQueue.shuffle
    cases hs : q.songs with
    | nil => exact h
    | cons t rest =>
      refine ⟨?_, ?_, h.2.2⟩
      · intro hn
        cases hn
      · intro t2 ht2
        have : t2 = t := by
          simpa using ht2.symm
        refine h.2.1 t2 ?_
        rw [hs, this]
        rfl
  | removeE index =>
    show InvQ (GuildQueue.remove index q).1
    unfold GuildQueue.remove
    by_cases hc : index ≤ 0 ∨ (q.songs.length : Int) ≤ index
    · rw [if_pos hc]
      exact h
    · rw [if_neg hc]
      have h1 : 1 ≤ index := by omega
      have h2 : index < (q.songs.length : Int) := by omega
      cases hs : q.songs with
      | nil =>
        rw [hs] at h2
        simp at h2
        omega
      | cons a rest =>
        obtain ⟨m, hm⟩ : ∃ m, index.toNat = m + 1 := ⟨index.toNat - 1, by omega⟩
        refine ⟨?_, ?_, h.2.2⟩
        · intro hn
          rw [hm] at hn
          simp [List.take_succ_cons] at hn
        · intro t ht
          rw [hm] at ht
          simp only [List.take_succ_cons, List.cons_append, List.head?_cons] at ht
          refine h.2.1 t ?_
          rw [hs]
          exact ht

/-- A freshly constructed queue satisfies the invariant. -/
theorem init_inv (gid tc : String) : InvQ (GuildQueue.init gid tc) := by
  refine ⟨fun _ => rfl, ?_, ?_⟩
  · intro t ht
    simp [GuildQueue.init] at ht
  · intro hp
    simp [GuildQueue.init] at hp

/-- The invariant holds along every well-timed event trace. -/
theorem runEvents_inv : ∀ (evs : List Event) (q : GuildQueue),
    (∀ e ∈ evs, eventOK e) → InvQ q → InvQ (runEvents evs q) := by
  intro evs
  induction evs with
  | nil => intro q _ h; exact h
  | cons e rest ih =>
    intro q hok h
    have h1 : InvQ (stepEv e q) :=
      stepEv_inv e q h (hok e (List.mem_cons_self e rest))
    exact ih (stepEv e q) (fun e2 he2 => hok e2 (List.mem_cons_of_mem e he2)) h1

/-- Every reachable queue state satisfies the invariant. -/
theorem reachable_inv {gid tc : String} {q : GuildQueue}
    (h : ReachableQ gid tc q) : InvQ q := by
  obtain ⟨evs, hok, rfl⟩ := h
  exact runEvents_inv evs (GuildQueue.init gid tc) hok (init_inv gid tc)

/-- C1: in every reachable queue state, at most one audio playback session
is live (the single resource slot of the single player), and `songs[0]`,
whenever present, is exactly the track that was passed to the most recent
successful playback start. -/
theorem queue_head_matches_last_started (gid tc : String) (q : GuildQueue)
    (h : ReachableQ gid tc q) :
    q.sessionCount ≤ 1 ∧
    ∀ t, q.songs.head? = some t → q.lastStarted = some t := by
  refine ⟨?_, (reachable_inv h).2.1⟩
  unfold GuildQueue.sessionCount
  cases q.currentResource <;> simp

/-- Witness for C1 at the concrete reachable state reached by one add that
resolves and starts `trackA`: the session count is one and the head is the
last-started track. -/
theorem queue_head_matches_last_started_witness :
    (runEvents [.addE addEnvA "https://www.youtube.com/watch?v=aaa" (some "u") 1000]
      (GuildQueue.init "g" "c")).sessionCount ≤ 1 ∧
    ∀ t, (runEvents [.addE addEnvA "https://www.youtube.com/watch?v=aaa" (some "u") 1000]
      (GuildQueue.init "g" "c")).songs.head? = some t →
      (runEvents [.addE addEnvA "https://www.youtube.com/watch?v=aaa" (some "u") 1000]
        (GuildQueue.init "g" "c")).lastStarted = some t :=
  queue_head_matches_last_started "g" "c" _
    ⟨[.addE addEnvA "https://www.youtube.com/watch?v=aaa" (some "u") 1000],
     by
       intro e he
       simp only [List.mem_singleton] at he
       subst he
       show (0 : Int) < 1000
       norm_num,
     rfl⟩

/-- Counterexample to C4 as stated: in the reachable state where `trackA`
(duration 10 s) started playing at t = 1000 ms, querying the elapsed time at
t = 21000 ms returns 20 s — `getElapsedSeconds` is not clamped by the track
duration. -/
theorem elapsed_can_exceed_duration :
    runEvents [.addE addEnvA "https://www.youtube.com/watch?v=aaa" (some "u") 1000]
      (GuildQueue.init "g" "c") = qPlayingA ∧
    (qPlayingA.songs.head?.map Track.duration) = some (some 10) ∧
    qPlayingA.getElapsedSeconds 21000 = 20 ∧
    (10 : ℚ) < qPlayingA.getElapsedSeconds 21000 := by
  refine ⟨by decide, by decide, ?_, ?_⟩
  · show GuildQueue.getElapsedSeconds qPlayingA 21000 = 20
    norm_num [GuildQueue.getElapsedSeconds, qPlayingA, GuildQueue.init]
  · show (10 : ℚ) < GuildQueue.getElapsedSeconds qPlayingA 21000
    norm_num [GuildQueue.getElapsedSeconds, qPlayingA, GuildQueue.init]

/-- C4 (amended): `getElapsedSeconds` always returns a value ≥ 0, and while
the queue is paused the returned value does not depend on the query time —
successive calls during a pause cannot increase; the value is however not
bounded above by the track duration. -/
theorem elapsed_nonneg_and_frozen_while_paused :
    (∀ (q : GuildQueue) (nowMs : Int), 0 ≤ q.getElapsedSeconds nowMs) ∧
    (∀ (gid tc : String) (q : GuildQueue), ReachableQ gid tc q → q.paused = true →
       ∀ (now1 now2 : Int), q.getElapsedSeconds now1 = q.getElapsedSeconds now2) := by
  constructor
  · intro q nowMs
    have hx : ∀ x : ℚ, 0 ≤ if x < 0 then (0 : ℚ) else x := by
      intro x
      split
      · exact le_refl 0
      · exact le_of_not_lt (by assumption)
    unfold GuildQueue.getElapsedSeconds
    split
    · exact le_refl 0
    · exact hx _
  · intro gid tc q hr hp now1 now2
    have hpc := (reachable_inv hr).2.2 hp
    by_cases h0 : q.currentStartMs = 0
    · simp [GuildQueue.getElapsedSeconds, h0]
    · rcases hpc with ⟨p, hpa, hz⟩ | ⟨hpa, hstart⟩
      · simp [GuildQueue.getElapsedSeconds, h0, hp, hpa, hz]
      · exact absurd hstart h0

/-- Witness for C4 (amended) at the reachable state paused at t = 5000 ms:
the elapsed value is nonnegative and identical when queried at t = 6000 ms
and t = 9000 ms. -/
theorem elapsed_nonneg_and_frozen_while_paused_witness :
    0 ≤ (runEvents [.addE addEnvA "https://www.youtube.com/watch?v=aaa" (some "u") 1000,
          .pauseE 5000] (GuildQueue.init "g" "c")).getElapsedSeconds 6000 ∧
    (runEvents [.addE addEnvA "https://www.youtube.com/watch?v=aaa" (some "u") 1000,
        .pauseE 5000] (GuildQueue.init "g" "c")).getElapsedSeconds 6000 =
      (runEvents [.addE addEnvA "https://www.youtube.com/watch?v=aaa" (some "u") 1000,
          .pauseE 5000] (GuildQueue.init "g" "c")).getElapsedSeconds 9000 :=
  ⟨elapsed_nonneg_and_frozen_while_paused.1 _ 6000,
   elapsed_nonneg_and_frozen_while_paused.2 "g" "c" _
     ⟨[.addE addEnvA "https://www.youtube.com/watch?v=aaa" (some "u") 1000,
       .pauseE 5000],
      by
        intro e he
        simp only [List.mem_cons, List.not_mem_nil, or_false] at he
        rcases he with rfl | rfl
        · show (0 : Int) < 1000
          norm_num
        · show (0 : Int) < 5000
          norm_num,
      rfl⟩ (by decide) 6000 9000⟩
